import Mathlib

/-
Formal verification of the renterd core against its specification.

The development shallowly embeds the relevant parts of the source:
* the RHP v3 transport helpers (subscriber streams, registry RPCs),
* the host resolver (fallback dialer),
* the SQL object/slab/contract store (tables modelled as lists of rows,
  autoincrement primary keys modelled by a single monotone counter,
  transactions modelled by `Except`: an error commits nothing).

Machine integers are modelled as `Nat`; byte strings as `List Nat`
(each entry one byte).  Key marshalling (`MarshalText`/`UnmarshalText`)
is modelled as the identity on opaque key values.
-/

set_option maxHeartbeats 1000000

/-! ## Byte-order helpers (binary.LittleEndian / binary.BigEndian, u64) -/

/-- Little-endian interpretation of a byte list (binary.LittleEndian.Uint64). -/
def leBytesToNat (bs : List Nat) : Nat :=
  bs.foldr (fun b acc => b + 256 * acc) 0

/-- The eight little-endian bytes of a 64-bit value
(binary.LittleEndian.PutUint64). -/
def natToLeBytes8 (n : Nat) : List Nat :=
  [n % 256, n / 256 % 256, n / 256 ^ 2 % 256, n / 256 ^ 3 % 256,
   n / 256 ^ 4 % 256, n / 256 ^ 5 % 256, n / 256 ^ 6 % 256, n / 256 ^ 7 % 256]

/-- Big-endian interpretation of a byte list (binary.BigEndian.Uint64). -/
def beBytesToNat (bs : List Nat) : Nat :=
  bs.foldl (fun acc b => 256 * acc + b) 0

/-- The eight big-endian bytes of a 64-bit value
(binary.BigEndian.PutUint64). -/
def natToBeBytes8 (n : Nat) : List Nat :=
  [n / 256 ^ 7 % 256, n / 256 ^ 6 % 256, n / 256 ^ 5 % 256, n / 256 ^ 4 % 256,
   n / 256 ^ 3 % 256, n / 256 ^ 2 % 256, n / 256 % 256, n % 256]

namespace Rhp

/-! ## RPCReadRegistry / RPCUpdateRegistry output handling (part_000) -/

/-- The registry value assembled by RPCReadRegistry from the program output. -/
structure RegistryValue where
  data : List Nat
  revision : Nat
  typ : Nat
  signature : List Nat
  deriving Repr, DecidableEq

/-- The output-length check and output parsing performed by RPCReadRegistry
after a successful ExecuteProgram response carrying `outputLength` and the
output bytes `buf` (of length `outputLength`): reject outputs shorter than
64 (signature) + 8 (revision) + 1 (type tag) bytes, otherwise split the
buffer into a 64-byte signature, an 8-byte big-endian revision, the value
data, and a trailing type-tag byte. -/
def rpcReadRegistryParseOutput (outputLength : Nat) (buf : List Nat) :
    Except String RegistryValue :=
  if outputLength < 64 + 8 + 1 then
    .error "invalid output length"
  else
    .ok { signature := buf.take 64
          revision := beBytesToNat ((buf.drop 64).take 8)
          data := (buf.drop 72).dropLast
          typ := (buf.getLast?).getD 0 }

/-- The output-length check performed by RPCUpdateRegistry: the program
output must be empty. -/
def rpcUpdateRegistryCheckOutput (outputLength : Nat) : Except String Unit :=
  if outputLength != 0 then .error "invalid output length" else .ok ()

/-! ## Subscriber stream (part_000: stream.Read / readSubscriberResponse) -/

/-- Errors a stream read can surface: an I/O failure while draining the
subscriber ack, a host-supplied subscriber error (errors.New of the error
bytes), carried by every subsequent read. -/
inductive StreamErr where
  | ioErr : StreamErr
  | hostErr : List Nat → StreamErr
  deriving Repr, DecidableEq

/-- State of a stream returned by Transport.DialStream: the bytes the host
will deliver (`data`), whether the sync.Once already ran (`onceDone`), and
the memoised `readSubscriberResponseErr`. -/
structure StreamSt where
  data : List Nat
  onceDone : Bool
  subErr : Option StreamErr
  deriving Repr, DecidableEq

/-- The readSubscriberResponse method: read a 16-byte header
([8 reserved][u64 LE error length]); when the error length is nonzero read
that many error bytes and record them as the stream error.  io.ReadFull
against a short stream consumes what is available and fails. -/
def readSubscriberResponse (st : StreamSt) : StreamSt :=
  if st.data.length < 16 then
    { st with data := [], subErr := some .ioErr }
  else
    let hdr := st.data.take 16
    let rest := st.data.drop 16
    let errLen := leBytesToNat (hdr.drop 8)
    if errLen == 0 then
      { st with data := rest, subErr := none }
    else if rest.length < errLen then
      { st with data := [], subErr := some .ioErr }
    else
      { st with data := rest.drop errLen, subErr := some (.hostErr (rest.take errLen)) }

/-- The stream.Read method: on the first call drain the subscriber
response (sync.Once); if that recorded an error every read returns it,
otherwise pass the read on to the underlying stream (which returns up to
`n` bytes). -/
def streamRead (st : StreamSt) (n : Nat) : Except StreamErr (List Nat) × StreamSt :=
  let st' := if st.onceDone then st else { readSubscriberResponse st with onceDone := true }
  match st'.subErr with
  | some e => (.error e, st')
  | none => (.ok (st'.data.take n), { st' with data := st'.data.drop n })

end Rhp

namespace Dialer

/-! ## Host resolver (src/worker/dialer.go: fallbackDialer.Dial) -/

/-- Outcome oracles for one Dial call: the DNS resolution result
(net.ResolveIPAddr), whether dialing a given address connects
(net.Dialer.DialContext), and the host-directory lookup (bus.Host),
`none` meaning the bus call itself errors. -/
structure DialEnv where
  dns : Option String
  dialOK : String → Bool
  bus : Option (List String)

/-- Observable steps a Dial call performs, in order. -/
inductive DialEvent where
  | dnsResolve : String → DialEvent
  | dialAttempt : String → DialEvent
  | cacheLookup : String → DialEvent
  | cacheClear : String → DialEvent
  | busLookup : DialEvent
  deriving Repr, DecidableEq

/-- The hostCache: hostname → IP map. -/
abbrev Cache := List (String × String)

/-- hostCache.Get. -/
def cacheGet (c : Cache) (h : String) : Option String :=
  (c.find? (fun p => p.1 == h)).map (·.2)

/-- hostCache.Set (replace any entry for the hostname). -/
def cacheSet (c : Cache) (h ip : String) : Cache :=
  c.filter (fun p => !(p.1 == h)) ++ [(h, ip)]

/-- hostCache.Clear. -/
def cacheClear (c : Cache) (h : String) : Cache :=
  c.filter (fun p => !(p.1 == h))

/-- The loop over hostInfo.ResolvedAddresses: dial each in turn; the first
that connects is stored in the cache under the hostname; if none connects
the Dial call fails. -/
def tryBusAddrs (env : DialEnv) (cache : Cache) (host : String)
    (tr : List DialEvent) : List String → Except String String × Cache × List DialEvent
  | [] => (.error "failed to dial with all methods", cache, tr)
  | a :: rest =>
    if env.dialOK a then (.ok a, cacheSet cache host a, tr ++ [.dialAttempt a])
    else tryBusAddrs env cache host (tr ++ [.dialAttempt a]) rest

/-- The bus fallback of Dial: query the host directory and try its
addresses in order. -/
def busPhase (env : DialEnv) (cache : Cache) (host : String)
    (tr : List DialEvent) : Except String String × Cache × List DialEvent :=
  match env.bus with
  | none => (.error "bus error", cache, tr ++ [.busLookup])
  | some addrs => tryBusAddrs env cache host (tr ++ [.busLookup]) addrs

/-- fallbackDialer.Dial on a split `host` (the port does not affect the
control flow and is omitted): resolve DNS; on success cache the IP and
dial it (returning that dial's outcome directly); on DNS failure try a
cached IP, clearing the entry only if its dial fails; finally fall back
to the host directory.  Returns the dialed address on success, the new
cache, and the trace of steps taken. -/
def dialHost (env : DialEnv) (cache : Cache) (host : String) :
    Except String String × Cache × List DialEvent :=
  match env.dns with
  | some ip =>
    let cache := cacheSet cache host ip
    if env.dialOK ip then (.ok ip, cache, [.dnsResolve host, .dialAttempt ip])
    else (.error "dial failed", cache, [.dnsResolve host, .dialAttempt ip])
  | none =>
    match cacheGet cache host with
    | some cip =>
      if env.dialOK cip then
        (.ok cip, cache, [.dnsResolve host, .cacheLookup host, .dialAttempt cip])
      else
        busPhase env (cacheClear cache host) host
          [.dnsResolve host, .cacheLookup host, .dialAttempt cip, .cacheClear host]
    | none => busPhase env cache host [.dnsResolve host, .cacheLookup host]

end Dialer

namespace Stores

/-! ## SQL store data model (part_001: gorm tables as lists of rows).

Autoincrement primary keys are modelled by the single monotone counter
`DB.nextId`; a freshly inserted row receives the current counter value. -/

structure dbHost where
  id : Nat
  publicKey : Nat
  deriving Repr, DecidableEq

structure dbContract where
  id : Nat
  fcid : Nat
  hostId : Nat
  renewedFrom : Nat
  startHeight : Nat
  totalCost : Nat
  uploadSpending : Nat
  downloadSpending : Nat
  fundAccountSpending : Nat
  deriving Repr, DecidableEq

structure dbArchivedContract where
  fcid : Nat
  host : Nat
  renewedTo : Nat
  reason : String
  uploadSpending : Nat
  downloadSpending : Nat
  fundAccountSpending : Nat
  startHeight : Nat
  deriving Repr, DecidableEq

structure dbObject where
  id : Nat
  objectId : String
  key : Nat
  deriving Repr, DecidableEq

structure dbSlice where
  id : Nat
  dbObjectId : Nat
  offset : Nat
  length : Nat
  deriving Repr, DecidableEq

structure dbSlab where
  id : Nat
  dbSliceId : Nat
  key : Nat
  minShards : Nat
  totalShards : Nat
  deriving Repr, DecidableEq

structure dbSector where
  id : Nat
  latestHost : Nat
  root : Nat
  deriving Repr, DecidableEq

/-- Join row between slabs and sectors (shards table). -/
structure dbShard where
  id : Nat
  dbSlabId : Nat
  dbSectorId : Nat
  deriving Repr, DecidableEq

/-- The relational store: one list per table, plus the two many-to-many
join tables (contract↔sector, host↔sector) and the contract-set
membership join (set name → contract row ids). -/
structure DB where
  hosts : List dbHost
  contracts : List dbContract
  archivedContracts : List dbArchivedContract
  contractSets : List (String × List Nat)
  objects : List dbObject
  slices : List dbSlice
  slabs : List dbSlab
  shards : List dbShard
  sectors : List dbSector
  contractSectors : List (Nat × Nat)
  hostSectors : List (Nat × Nat)
  nextId : Nat
  deriving Repr, DecidableEq

/-- All row ids and foreign keys are below the autoincrement counter:
the invariant every store reachable by the operations maintains. -/
def WF (db : DB) : Prop :=
  (∀ o ∈ db.objects, o.id < db.nextId) ∧
  (∀ sl ∈ db.slices, sl.id < db.nextId ∧ sl.dbObjectId < db.nextId) ∧
  (∀ sb ∈ db.slabs, sb.id < db.nextId ∧ sb.dbSliceId < db.nextId) ∧
  (∀ sh ∈ db.shards, sh.id < db.nextId ∧ sh.dbSlabId < db.nextId ∧ sh.dbSectorId < db.nextId) ∧
  (∀ sec ∈ db.sectors, sec.id < db.nextId) ∧
  (∀ c ∈ db.contracts, c.id < db.nextId) ∧
  (∀ h ∈ db.hosts, h.id < db.nextId)

instance (db : DB) : Decidable (WF db) := by
  unfold WF; infer_instance

/-! ### The object package types (object.Object and friends) -/

/-- object.Sector: a shard location. -/
structure Sector where
  host : Nat
  root : Nat
  deriving Repr, DecidableEq

/-- object.Slab. -/
structure Slab where
  key : Nat
  minShards : Nat
  shards : List Sector
  deriving Repr, DecidableEq

/-- object.SlabSlice. -/
structure SlabSlice where
  slab : Slab
  offset : Nat
  length : Nat
  deriving Repr, DecidableEq

/-- object.Object. -/
structure Object where
  key : Nat
  slabs : List SlabSlice
  deriving Repr, DecidableEq

/-- Go map access `usedContracts[host]` (some = key present). -/
def lookupUsed (used : List (Nat × Nat)) (h : Nat) : Option Nat :=
  (used.find? (fun p => p.1 == h)).map (·.2)

/-! ### Read path (dbObject.convert / dbSlab.convert / SQLStore.object) -/

/-- Hydrate one shard slot of dbSlab.convert: if the sector row resolves,
fill host and root, otherwise leave the zero-value object.Sector. -/
def convertShard (db : DB) (sh : dbShard) : Sector :=
  match db.sectors.find? (fun sec => sec.id == sh.dbSectorId) with
  | none => { host := 0, root := 0 }
  | some sec => { host := sec.latestHost, root := sec.root }

/-- dbSlab.convert: unmarshal the key (identity on the opaque key value),
copy MinShards, and hydrate the shard list from the shards join rows. -/
def convertSlab (db : DB) (slb : dbSlab) : Slab :=
  { key := slb.key
    minShards := slb.minShards
    shards := (db.shards.filter (fun sh => sh.dbSlabId == slb.id)).map (convertShard db) }

/-- The per-slice part of dbObject.convert: the preloaded slab of a slice
(zero-value slab when the has-one association does not resolve) plus the
slice offset and length. -/
def convertSlice (db : DB) (sl : dbSlice) : SlabSlice :=
  match db.slabs.find? (fun slb => slb.dbSliceId == sl.id) with
  | none => { slab := { key := 0, minShards := 0, shards := [] }
              offset := sl.offset, length := sl.length }
  | some slb => { slab := convertSlab db slb, offset := sl.offset, length := sl.length }

/-- SQLStore.Object: look the object row up by key and convert it together
with its preloaded slices. -/
def objectGet (db : DB) (key : String) : Except String Object :=
  match db.objects.find? (fun o => o.objectId == key) with
  | none => .error "object not found in database"
  | some o =>
    .ok { key := o.key
          slabs := (db.slices.filter (fun sl => sl.dbObjectId == o.id)).map (convertSlice db) }

/-! ### Write path (SQLStore.UpdateObject and helpers) -/

/-- removeObject: delete the object row(s) at the key; the declared
foreign-key cascades delete its slices, their slabs, and those slabs'
shard join rows (sector rows are shared and stay). -/
def removeObject (db : DB) (key : String) : DB :=
  let deadObj := (db.objects.filter (fun o => o.objectId == key)).map (·.id)
  let deadSlice := (db.slices.filter (fun sl => deadObj.contains sl.dbObjectId)).map (·.id)
  let deadSlab := (db.slabs.filter (fun sb => deadSlice.contains sb.dbSliceId)).map (·.id)
  { db with
    objects := db.objects.filter (fun o => !(o.objectId == key))
    slices := db.slices.filter (fun sl => !(deadObj.contains sl.dbObjectId))
    slabs := db.slabs.filter (fun sb => !(deadSlice.contains sb.dbSliceId))
    shards := db.shards.filter (fun sh => !(deadSlab.contains sh.dbSlabId)) }

/-- FirstOrCreate of a sector keyed by root with Assign(LatestHost):
update the latest host of the existing row, or create a fresh row.
Returns the store and the sector row id. -/
def upsertSector (db : DB) (host root : Nat) : DB × Nat :=
  match db.sectors.find? (fun sec => sec.root == root) with
  | some sec =>
    ({ db with sectors := db.sectors.map (fun t =>
        if t.id == sec.id then { t with latestHost := host } else t) }, sec.id)
  | none =>
    ({ db with sectors := db.sectors ++ [{ id := db.nextId, latestHost := host, root := root }]
               nextId := db.nextId + 1 }, db.nextId)

/-- gorm many-to-many Association Append on a join table: insert the pair
unless it is already present. -/
def appendAssoc (l : List (Nat × Nat)) (p : Nat × Nat) : List (Nat × Nat) :=
  if l.contains p then l else l ++ [p]

/-- The per-shard body of UpdateObject's insert loop: translate the shard
host to its contract, upsert the sector, create the slab↔sector join row,
and append the contract and host associations when those rows exist. -/
def insertShard (db : DB) (slabId : Nat) (used : List (Nat × Nat)) (sh : Sector) : DB :=
  let fcid := (lookupUsed used sh.host).getD 0
  let p := upsertSector db sh.host sh.root
  let secId := p.2
  let db : DB := p.1
  let db : DB := { db with
    shards := db.shards ++ [{ id := db.nextId, dbSlabId := slabId, dbSectorId := secId }]
    nextId := db.nextId + 1 }
  let db : DB :=
    match db.contracts.find? (fun c => c.fcid == fcid) with
    | some c => { db with contractSectors := appendAssoc db.contractSectors (c.id, secId) }
    | none => db
  match db.hosts.find? (fun h => h.publicKey == sh.host) with
  | some h => { db with hostSectors := appendAssoc db.hostSectors (h.id, secId) }
  | none => db

/-- The per-slice body of UpdateObject's insert loop: create the slice
row, its slab row, and the slab's shards. -/
def insertSlice (used : List (Nat × Nat)) (objId : Nat) (db : DB) (ss : SlabSlice) : DB :=
  let sliceId := db.nextId
  let db : DB := { db with
    slices := db.slices ++ [{ id := sliceId, dbObjectId := objId
                              offset := ss.offset, length := ss.length }]
    nextId := db.nextId + 1 }
  let slabId := db.nextId
  let db : DB := { db with
    slabs := db.slabs ++ [{ id := slabId, dbSliceId := sliceId, key := ss.slab.key
                            minShards := ss.slab.minShards
                            totalShards := ss.slab.shards.length }]
    nextId := db.nextId + 1 }
  ss.slab.shards.foldl (fun db sh => insertShard db slabId used sh) db

/-- SQLStore.UpdateObject: reject the write up front when any shard's host
is missing from the host→contract map; otherwise, in one transaction,
delete any existing object at the key and insert the new object graph. -/
def updateObject (db : DB) (key : String) (o : Object)
    (used : List (Nat × Nat)) : Except String DB :=
  if o.slabs.any (fun ss => ss.slab.shards.any (fun sh => (lookupUsed used sh.host).isNone)) then
    .error "missing contract for host"
  else
    let db : DB := removeObject db key
    let objId := db.nextId
    let db : DB := { db with
      objects := db.objects ++ [{ id := objId, objectId := key, key := o.key }]
      nextId := db.nextId + 1 }
    .ok (o.slabs.foldl (insertSlice used objId) db)

/-- The store after an UpdateObject call: a failed transaction commits
nothing. -/
def updateObjectState (db : DB) (key : String) (o : Object)
    (used : List (Nat × Nat)) : DB :=
  match updateObject db key o used with
  | .ok db' => db'
  | .error _ => db

/-! ### Contract ledger (AddContract / AddRenewedContract / RemoveContract /
RecordContractSpending) -/

/-- Look an active contract up by its file contract id. -/
def contractByFCID (db : DB) (fcid : Nat) : Option dbContract :=
  db.contracts.find? (fun c => c.fcid == fcid)

/-- removeContract: delete the active contract row; the declared cascades
remove its contract-set memberships and contract↔sector join rows. -/
def removeContract (db : DB) (fcid : Nat) : DB :=
  let dead := (db.contracts.filter (fun c => c.fcid == fcid)).map (·.id)
  { db with
    contracts := db.contracts.filter (fun c => !(c.fcid == fcid))
    contractSets := db.contractSets.map (fun p => (p.1, p.2.filter (fun cid => !(dead.contains cid))))
    contractSectors := db.contractSectors.filter (fun q => !(dead.contains q.1)) }

/-- The parts of an rhpv2.ContractRevision the store reads: c.ID() and
c.HostKey(). -/
structure ContractRevision where
  fcid : Nat
  hostKey : Nat
  deriving Repr, DecidableEq

/-- addContract: look the host row up by public key (error when absent)
and insert a fresh contract row with zero spending. -/
def addContract (db : DB) (c : ContractRevision) (totalCost startHeight renewedFrom : Nat) :
    Except String (DB × dbContract) :=
  match db.hosts.find? (fun h => h.publicKey == c.hostKey) with
  | none => .error "record not found"
  | some h =>
    let nc : dbContract :=
      { id := db.nextId, fcid := c.fcid, hostId := h.id, renewedFrom := renewedFrom
        startHeight := startHeight, totalCost := totalCost
        uploadSpending := 0, downloadSpending := 0, fundAccountSpending := 0 }
    .ok ({ db with contracts := db.contracts ++ [nc], nextId := db.nextId + 1 }, nc)

/-- archivalReasonRenewed. -/
def archivalReasonRenewed : String := "renewed"

/-- SQLStore.AddRenewedContract: in one transaction, fetch the contract
being renewed (error when absent), create its archived copy (reason
"renewed", RenewedTo pointing at the new contract, spending preserved),
delete it from the active table, and add the new contract with
RenewedFrom pointing back. -/
def addRenewedContract (db : DB) (c : ContractRevision)
    (totalCost startHeight renewedFrom : Nat) : Except String (DB × dbContract) :=
  match contractByFCID db renewedFrom with
  | none => .error "couldn't find contract"
  | some oldC =>
    let oldHostPk := ((db.hosts.find? (fun h => h.id == oldC.hostId)).map (·.publicKey)).getD 0
    let arch : dbArchivedContract :=
      { fcid := oldC.fcid, host := oldHostPk, renewedTo := c.fcid
        reason := archivalReasonRenewed
        uploadSpending := oldC.uploadSpending
        downloadSpending := oldC.downloadSpending
        fundAccountSpending := oldC.fundAccountSpending
        startHeight := oldC.startHeight }
    let db : DB := { db with archivedContracts := db.archivedContracts ++ [arch] }
    let db : DB := removeContract db renewedFrom
    addContract db c totalCost startHeight renewedFrom

/-- The store after an AddRenewedContract call: a failed transaction
commits nothing. -/
def addRenewedContractState (db : DB) (c : ContractRevision)
    (totalCost startHeight renewedFrom : Nat) : DB :=
  match addRenewedContract db c totalCost startHeight renewedFrom with
  | .ok p => p.1
  | .error _ => db

/-- api.ContractSpendingRecord. -/
structure ContractSpendingRecord where
  contractId : Nat
  uploads : Nat
  downloads : Nat
  fundAccount : Nat
  deriving Repr, DecidableEq

/-- One iteration of SQLStore.RecordContractSpending: look the contract up
by FCID; when absent the record is skipped silently, otherwise the three
spending totals are increased and the row saved back by primary key. -/
def recordOneSpending (db : DB) (r : ContractSpendingRecord) : DB :=
  match db.contracts.find? (fun c => c.fcid == r.contractId) with
  | none => db
  | some c =>
    { db with contracts := db.contracts.map (fun t =>
        if t.id == c.id then
          { c with uploadSpending := c.uploadSpending + r.uploads
                   downloadSpending := c.downloadSpending + r.downloads
                   fundAccountSpending := c.fundAccountSpending + r.fundAccount }
        else t) }

/-- SQLStore.RecordContractSpending: process the records in order. -/
def recordContractSpending (db : DB) (records : List ContractSpendingRecord) : DB :=
  records.foldl recordOneSpending db

/-! ### SQLStore.UpdateSlab -/

/-- The body of UpdateSlab's shard loop: upsert the sector, create the
slab↔sector join row unless the slab already had one (the `existing` map
is computed once, before the loop), and append the contract and host
associations when the contract supplied for the shard's host (restricted,
as in the source, to the prefetched rows matching the usedContracts keys
and values) and the host row exist. -/
def updateSlabShard (slabId : Nat) (existing : List Nat) (used : List (Nat × Nat))
    (db : DB) (sh : Sector) : DB :=
  let p := upsertSector db sh.host sh.root
  let secId := p.2
  let db : DB := p.1
  let db : DB :=
    if existing.contains secId then db
    else { db with
      shards := db.shards ++ [{ id := db.nextId, dbSlabId := slabId, dbSectorId := secId }]
      nextId := db.nextId + 1 }
  let fcid := (lookupUsed used sh.host).getD 0
  let db : DB :=
    match (if (used.map Prod.snd).contains fcid
           then db.contracts.find? (fun c => c.fcid == fcid) else none) with
    | some c => { db with contractSectors := appendAssoc db.contractSectors (c.id, secId) }
    | none => db
  match (if (used.map Prod.fst).contains sh.host
         then db.hosts.find? (fun h => h.publicKey == sh.host) else none) with
  | some h => { db with hostSectors := appendAssoc db.hostSectors (h.id, secId) }
  | none => db

/-- SQLStore.UpdateSlab: find the existing slab by key (error when
absent); remember which sector ids it is already linked to; then run the
shard loop over the updated shards. -/
def updateSlab (db : DB) (s : Slab) (used : List (Nat × Nat)) : Except String DB :=
  match db.slabs.find? (fun slb => slb.key == s.key) with
  | none => .error "slab not found"
  | some slab =>
    let existing := (db.shards.filter (fun sh => sh.dbSlabId == slab.id)).map (·.dbSectorId)
    .ok (s.shards.foldl (updateSlabShard slab.id existing used) db)

/-- One store extends another without losing state: every shard join row,
contract↔sector and host↔sector association survives, every sector row
survives with its id and root intact, and the contract and host tables
are untouched.  This is the frame UpdateSlab's shard loop preserves. -/
def Grows (db1 db2 : DB) : Prop :=
  (∀ x ∈ db1.shards, x ∈ db2.shards) ∧
  (∀ p ∈ db1.contractSectors, p ∈ db2.contractSectors) ∧
  (∀ p ∈ db1.hostSectors, p ∈ db2.hostSectors) ∧
  (∀ sec ∈ db1.sectors, ∃ sec' ∈ db2.sectors, sec'.id = sec.id ∧ sec'.root = sec.root) ∧
  db2.contracts = db1.contracts ∧
  db2.hosts = db1.hosts

/-! ### SQLStore.UnhealthySlabs -/

/-- Contract row ids belonging to the named contract set. -/
def setContractRowIds (db : DB) (set : String) : List Nat :=
  ((db.contractSets.filter (fun p => p.1 == set)).map Prod.snd).flatten

/-- Sector ids reached from a slab through the shards join (the INNER
JOINs on shards and sectors). -/
def slabSectorIds (db : DB) (slb : dbSlab) : List Nat :=
  ((db.shards.filter (fun sh => sh.dbSlabId == slb.id)).map (·.dbSectorId)).filter
    (fun sid => db.sectors.any (fun sec => sec.id == sid))

/-- The distinct host ids counted by COUNT(DISTINCT(c.host_id)): hosts of
contracts that are members of the named set and hold one of the slab's
sectors. -/
def goodHosts (db : DB) (set : String) (slb : dbSlab) : List Nat :=
  ((db.contracts.filter (fun c =>
      (setContractRowIds db set).contains c.id &&
      (slabSectorIds db slb).any (fun sid => db.contractSectors.contains (c.id, sid)))).map
    (·.hostId)).dedup

/-- num_good_sectors of a slab. -/
def numGoodSectors (db : DB) (set : String) (slb : dbSlab) : Nat :=
  (goodHosts db set slb).length

/-- num_bad_sectors of a slab (the shard deficit). -/
def numBadSectors (db : DB) (set : String) (slb : dbSlab) : Nat :=
  slb.totalShards - numGoodSectors db set slb

/-- Insert a slab into a list sorted by strictly descending key order
position (ORDER BY num_bad_sectors DESC; ties keep arrival order). -/
def insertByBadDesc (key : dbSlab → Nat) (x : dbSlab) : List dbSlab → List dbSlab
  | [] => [x]
  | y :: ys => if key y < key x then x :: y :: ys else y :: insertByBadDesc key x ys

/-- Sort slabs by descending key. -/
def sortByBadDesc (key : dbSlab → Nat) (l : List dbSlab) : List dbSlab :=
  l.foldr (insertByBadDesc key) []

/-- The slab rows produced by the UnhealthySlabs query: a slab appears in
the grouped result only when the joins yield at least one row (some sector
held under a contract of the set), is kept by the HAVING clause when
num_good_sectors < num_required_sectors, sorted by num_bad_sectors
descending and capped at `limit`. -/
def unhealthySlabRows (db : DB) (set : String) (limit : Nat) : List dbSlab :=
  (sortByBadDesc (numBadSectors db set)
    (db.slabs.filter (fun slb =>
      !(goodHosts db set slb).isEmpty &&
      numGoodSectors db set slb < slb.totalShards))).take limit

/-- SQLStore.UnhealthySlabs: the selected rows converted to object.Slab. -/
def unhealthySlabs (db : DB) (set : String) (limit : Nat) : List Slab :=
  (unhealthySlabRows db set limit).map (convertSlab db)

/-- The per-slice fields the round-trip property compares: offset,
length, slab encryption key and slab minShards. -/
def sliceProj (s : SlabSlice) : Nat × Nat × Nat × Nat :=
  (s.offset, s.length, s.slab.key, s.slab.minShards)

/-- The slices of object row id `oid` as read back by the Object query,
projected to the round-trip fields. -/
def readSliceProjs (db : DB) (oid : Nat) : List (Nat × Nat × Nat × Nat) :=
  ((db.slices.filter (fun sl => sl.dbObjectId == oid)).map (convertSlice db)).map sliceProj

/-- The per-shard postcondition of UpdateSlab relative to the store
`db0` the call started from: some sector row carries the shard's root,
the slab is linked to it, and — when the shard's host maps to a contract
in `used` and the contract and host rows exist in `db0` — the contract
and host associations for that sector are present. -/
def ShardFact (db0 : DB) (slabId : Nat) (used : List (Nat × Nat))
    (sh : Sector) (dbX : DB) : Prop :=
  ∃ sec ∈ dbX.sectors, sec.root = sh.root ∧
    (∃ srow ∈ dbX.shards, srow.dbSlabId = slabId ∧ srow.dbSectorId = sec.id) ∧
    (∀ fcid, lookupUsed used sh.host = some fcid →
      (∀ c, db0.contracts.find? (fun t => t.fcid == fcid) = some c →
        (c.id, sec.id) ∈ dbX.contractSectors) ∧
      (∀ h, db0.hosts.find? (fun t => t.publicKey == sh.host) = some h →
        (h.id, sec.id) ∈ dbX.hostSectors))

/-! ### Concrete example stores (spec section 8 scenarios) -/

/-- The spec's example scenario: one slab with minShards = 2 and
totalShards = 4; its four sectors sit on hosts 1..4 under contracts
21..24, but only contracts 21 and 22 (hosts 1 and 2) are members of the
contract set "default". -/
def scenarioDB : DB :=
  { hosts := [⟨1, 101⟩, ⟨2, 102⟩, ⟨3, 103⟩, ⟨4, 104⟩]
    contracts := [⟨21, 201, 1, 0, 0, 0, 0, 0, 0⟩, ⟨22, 202, 2, 0, 0, 0, 0, 0, 0⟩,
                  ⟨23, 203, 3, 0, 0, 0, 0, 0, 0⟩, ⟨24, 204, 4, 0, 0, 0, 0, 0, 0⟩]
    archivedContracts := []
    contractSets := [("default", [21, 22])]
    objects := [], slices := []
    slabs := [⟨10, 0, 5, 2, 4⟩]
    shards := [⟨31, 10, 11⟩, ⟨32, 10, 12⟩, ⟨33, 10, 13⟩, ⟨34, 10, 14⟩]
    sectors := [⟨11, 101, 301⟩, ⟨12, 102, 302⟩, ⟨13, 103, 303⟩, ⟨14, 104, 304⟩]
    contractSectors := [(21, 11), (22, 12), (23, 13), (24, 14)]
    hostSectors := [], nextId := 40 }

/-- The same store with every contract↔sector association dropped: the
slab's shards are no longer held under any contract, so its redundancy
within "default" is zero. -/
def orphanSlabDB : DB :=
  { hosts := [⟨1, 101⟩, ⟨2, 102⟩, ⟨3, 103⟩, ⟨4, 104⟩]
    contracts := [⟨21, 201, 1, 0, 0, 0, 0, 0, 0⟩, ⟨22, 202, 2, 0, 0, 0, 0, 0, 0⟩,
                  ⟨23, 203, 3, 0, 0, 0, 0, 0, 0⟩, ⟨24, 204, 4, 0, 0, 0, 0, 0, 0⟩]
    archivedContracts := []
    contractSets := [("default", [21, 22])]
    objects := [], slices := []
    slabs := [⟨10, 0, 5, 2, 4⟩]
    shards := [⟨31, 10, 11⟩, ⟨32, 10, 12⟩, ⟨33, 10, 13⟩, ⟨34, 10, 14⟩]
    sectors := [⟨11, 101, 301⟩, ⟨12, 102, 302⟩, ⟨13, 103, 303⟩, ⟨14, 104, 304⟩]
    contractSectors := []
    hostSectors := [], nextId := 40 }

end Stores

/-! ## Supporting lemmas -/

theorem leBytesToNat_natToLeBytes8 (n : Nat) (h : n < 256 ^ 8) :
    leBytesToNat (natToLeBytes8 n) = n := by
  simp [leBytesToNat, natToLeBytes8]
  omega

theorem beBytesToNat_natToBeBytes8 (n : Nat) (h : n < 256 ^ 8) :
    beBytesToNat (natToBeBytes8 n) = n := by
  simp [beBytesToNat, natToBeBytes8]
  omega

theorem natToLeBytes8_length (n : Nat) : (natToLeBytes8 n).length = 8 := rfl

theorem natToBeBytes8_length (n : Nat) : (natToBeBytes8 n).length = 8 := rfl

/-! ## C6 -/

/-- C6: RPCReadRegistry rejects a host-reported output length below
64+8+1 = 73 bytes with a protocol-violation error and accepts any other
length; an accepted output is parsed as a 64-byte signature, an 8-byte
big-endian revision number, the value data, and a final type-tag byte.
RPCUpdateRegistry fails with a protocol-violation error exactly when the
host-reported output length is nonzero. -/
theorem C6_registry_output_checks :
    (∀ (len : Nat) (buf : List Nat),
      (∃ e, Rhp.rpcReadRegistryParseOutput len buf = .error e) ↔ len < 64 + 8 + 1) ∧
    (∀ (sig data : List Nat) (rev typ : Nat), sig.length = 64 → rev < 256 ^ 8 →
      Rhp.rpcReadRegistryParseOutput
          (sig ++ natToBeBytes8 rev ++ data ++ [typ]).length
          (sig ++ natToBeBytes8 rev ++ data ++ [typ])
        = .ok { data := data, revision := rev, typ := typ, signature := sig }) ∧
    (∀ len : Nat, (∃ e, Rhp.rpcUpdateRegistryCheckOutput len = .error e) ↔ len ≠ 0) := by
  refine ⟨fun len buf => ?_, fun sig data rev typ hsig hrev => ?_, fun len => ?_⟩
  · unfold Rhp.rpcReadRegistryParseOutput
    by_cases h : len < 64 + 8 + 1 <;> simp [h]
  · have hlen : (sig ++ natToBeBytes8 rev ++ data ++ [typ]).length = 73 + data.length := by
      simp [hsig, natToBeBytes8_length]; omega
    have hnot : ¬ (sig ++ natToBeBytes8 rev ++ data ++ [typ]).length < 64 + 8 + 1 := by
      omega
    unfold Rhp.rpcReadRegistryParseOutput
    rw [if_neg hnot]
    have e1 : sig ++ natToBeBytes8 rev ++ data ++ [typ]
        = sig ++ (natToBeBytes8 rev ++ (data ++ [typ])) := by simp
    have htake64 : (sig ++ natToBeBytes8 rev ++ data ++ [typ]).take 64 = sig := by
      rw [e1]; exact List.take_left' hsig
    have hdrop64 : (sig ++ natToBeBytes8 rev ++ data ++ [typ]).drop 64
        = natToBeBytes8 rev ++ (data ++ [typ]) := by
      rw [e1]; exact List.drop_left' hsig
    have htake8 : (natToBeBytes8 rev ++ (data ++ [typ])).take 8 = natToBeBytes8 rev :=
      List.take_left' (natToBeBytes8_length rev)
    have e2 : sig ++ natToBeBytes8 rev ++ data ++ [typ]
        = (sig ++ natToBeBytes8 rev) ++ (data ++ [typ]) := by simp
    have hdrop72 : (sig ++ natToBeBytes8 rev ++ data ++ [typ]).drop 72 = data ++ [typ] := by
      rw [e2]; exact List.drop_left' (by simp [hsig, natToBeBytes8_length])
    have hlast : (sig ++ natToBeBytes8 rev ++ data ++ [typ]).getLast? = some typ :=
      List.getLast?_concat _
    simp only [htake64, hdrop64, htake8, hdrop72, hlast, List.dropLast_concat,
      Option.getD_some, beBytesToNat_natToBeBytes8 rev hrev]
  · unfold Rhp.rpcUpdateRegistryCheckOutput
    by_cases h : len = 0 <;> simp [h]

/-- Witness for C6 at a concrete 74-byte output. -/
theorem C6_registry_output_checks_witness :
    Rhp.rpcReadRegistryParseOutput
        (List.replicate 64 0 ++ natToBeBytes8 5 ++ [9] ++ [1]).length
        (List.replicate 64 0 ++ natToBeBytes8 5 ++ [9] ++ [1])
      = .ok { data := [9], revision := 5, typ := 1, signature := List.replicate 64 0 } :=
  C6_registry_output_checks.2.1 (List.replicate 64 0) [9] 5 1 (by decide) (by decide)

/-! ## C10 -/

/-- C10: the subscriber-ack frame ([8 reserved bytes][u64 error length]
[error bytes when the length is nonzero]) is consumed from the underlying
stream exactly once, on the first Read and before any payload byte is
returned: the first read of a fresh stream removes exactly the frame and
returns payload bytes (or, when the ack carries a non-empty error, that
error instead of payload); any read of a stream whose first read already
happened never touches the frame again — it either repeats the recorded
ack error without consuming anything or reads payload directly. -/
theorem C10_subscriber_ack :
    (∀ (reserved errBytes payload : List Nat) (n : Nat),
      reserved.length = 8 → errBytes.length < 256 ^ 8 →
      (errBytes = [] →
        Rhp.streamRead
            ⟨reserved ++ natToLeBytes8 errBytes.length ++ errBytes ++ payload, false, none⟩ n
          = (.ok (payload.take n), ⟨payload.drop n, true, none⟩)) ∧
      (errBytes ≠ [] →
        Rhp.streamRead
            ⟨reserved ++ natToLeBytes8 errBytes.length ++ errBytes ++ payload, false, none⟩ n
          = (.error (.hostErr errBytes), ⟨payload, true, some (.hostErr errBytes)⟩))) ∧
    (∀ (st : Rhp.StreamSt) (n : Nat), st.onceDone = true →
      (∀ e, st.subErr = some e → Rhp.streamRead st n = (.error e, st)) ∧
      (st.subErr = none →
        Rhp.streamRead st n = (.ok (st.data.take n), { st with data := st.data.drop n }))) := by
  constructor
  · intro reserved errBytes payload n hres hlt
    have hdata : reserved ++ natToLeBytes8 errBytes.length ++ errBytes ++ payload
        = (reserved ++ natToLeBytes8 errBytes.length) ++ (errBytes ++ payload) := by simp
    have hhdr : (reserved ++ natToLeBytes8 errBytes.length).length = 16 := by
      simp [hres, natToLeBytes8_length]
    have hlen : (reserved ++ natToLeBytes8 errBytes.length ++ errBytes ++ payload).length
        = 16 + errBytes.length + payload.length := by
      simp [hres, natToLeBytes8_length]; omega
    have hnotshort : ¬ (reserved ++ natToLeBytes8 errBytes.length ++ errBytes ++ payload).length < 16 := by
      omega
    have htake16 : (reserved ++ natToLeBytes8 errBytes.length ++ errBytes ++ payload).take 16
        = reserved ++ natToLeBytes8 errBytes.length := by
      rw [hdata]; exact List.take_left' hhdr
    have hdrop16 : (reserved ++ natToLeBytes8 errBytes.length ++ errBytes ++ payload).drop 16
        = errBytes ++ payload := by
      rw [hdata]; exact List.drop_left' hhdr
    have hdrop8 : (reserved ++ natToLeBytes8 errBytes.length).drop 8 = natToLeBytes8 errBytes.length :=
      List.drop_left' hres
    have herrlen : leBytesToNat ((reserved ++ natToLeBytes8 errBytes.length).drop 8)
        = errBytes.length := by
      rw [hdrop8]; exact leBytesToNat_natToLeBytes8 _ hlt
    constructor
    · intro hnil
      subst hnil
      simp only [Rhp.streamRead, Rhp.readSubscriberResponse, hnotshort, if_false,
        htake16, hdrop16, herrlen]
      simp
    · intro hne
      have hpos : errBytes.length ≠ 0 := by
        simpa [List.length_eq_zero] using hne
      have hrest : ¬ (errBytes ++ payload).length < errBytes.length := by
        simp
      simp only [Rhp.streamRead, Rhp.readSubscriberResponse, hnotshort, if_false,
        htake16, hdrop16, herrlen]
      simp only [beq_iff_eq, hpos, if_false, hrest,
        List.take_left' (rfl : errBytes.length = errBytes.length),
        List.drop_left' (rfl : errBytes.length = errBytes.length)]
      simp [Rhp.streamRead]
  · intro st n hdone
    constructor
    · intro e he
      simp [Rhp.streamRead, hdone, he]
    · intro he
      simp [Rhp.streamRead, hdone, he]

/-- Witness for C10 on a concrete stream: an empty-error ack followed by
three payload bytes, read with n = 2. -/
theorem C10_subscriber_ack_witness :
    Rhp.streamRead
        ⟨[0, 0, 0, 0, 0, 0, 0, 0] ++ natToLeBytes8 (List.length ([] : List Nat))
            ++ ([] : List Nat) ++ [7, 8, 9], false, none⟩ 2
      = (.ok [7, 8], ⟨[9], true, none⟩) := by
  have h := (C10_subscriber_ack.1 [0, 0, 0, 0, 0, 0, 0, 0] ([] : List Nat) [7, 8, 9] 2
    (by decide) (by decide)).1 rfl
  simpa using h


/-! ## C9 -/

namespace Dialer

theorem cacheGet_cacheSet (c : Cache) (h ip : String) :
    cacheGet (cacheSet c h ip) h = some ip := by
  have hnone : (c.filter (fun p => !(p.1 == h))).find? (fun p => p.1 == h) = none := by
    apply List.find?_eq_none.mpr
    intro x hx
    have := (List.mem_filter.mp hx).2
    simpa using this
  simp [cacheGet, cacheSet, List.find?_append, hnone]

theorem tryBusAddrs_result (env : DialEnv) (cache : Cache) (host : String)
    (tr : List DialEvent) (addrs : List String) :
    (match addrs.find? env.dialOK with
     | some a => (tryBusAddrs env cache host tr addrs).1 = .ok a ∧
                 (tryBusAddrs env cache host tr addrs).2.1 = cacheSet cache host a
     | none => (tryBusAddrs env cache host tr addrs).1 = .error "failed to dial with all methods" ∧
               (tryBusAddrs env cache host tr addrs).2.1 = cache) := by
  induction addrs generalizing tr with
  | nil => simp [tryBusAddrs]
  | cons a rest ih =>
    cases h : env.dialOK a with
    | true => simp [tryBusAddrs, h, List.find?_cons_of_pos _ h]
    | false =>
      rw [List.find?_cons_of_neg _ (by simp [h])]
      simpa [tryBusAddrs, h] using ih (tr ++ [.dialAttempt a])

theorem tryBusAddrs_trace (env : DialEnv) (cache : Cache) (host : String)
    (tr : List DialEvent) (addrs : List String) :
    ∀ ev ∈ (tryBusAddrs env cache host tr addrs).2.2,
      ev ∈ tr ∨ ∃ a, ev = DialEvent.dialAttempt a := by
  induction addrs generalizing tr with
  | nil => intro ev hev; exact Or.inl (by simpa [tryBusAddrs] using hev)
  | cons a rest ih =>
    intro ev hev
    cases h : env.dialOK a with
    | true =>
      simp only [tryBusAddrs, h, if_true] at hev
      rcases List.mem_append.mp hev with h1 | h1
      · exact Or.inl h1
      · exact Or.inr ⟨a, by simpa using h1⟩
    | false =>
      simp only [tryBusAddrs, h, Bool.false_eq_true, if_false] at hev
      rcases ih (tr ++ [.dialAttempt a]) ev hev with h1 | h1
      · rcases List.mem_append.mp h1 with h2 | h2
        · exact Or.inl h2
        · exact Or.inr ⟨a, by simpa using h2⟩
      · exact Or.inr h1

theorem tryBusAddrs_trace_append (env : DialEnv) (cache : Cache) (host : String)
    (tr : List DialEvent) (addrs : List String) :
    ∃ extra, (tryBusAddrs env cache host tr addrs).2.2 = tr ++ extra := by
  induction addrs generalizing tr with
  | nil => exact ⟨[], by simp [tryBusAddrs]⟩
  | cons a rest ih =>
    cases h : env.dialOK a with
    | true => exact ⟨[.dialAttempt a], by simp [tryBusAddrs, h]⟩
    | false =>
      obtain ⟨extra, hextra⟩ := ih (tr ++ [.dialAttempt a])
      exact ⟨.dialAttempt a :: extra, by simp [tryBusAddrs, h, hextra]⟩

theorem busPhase_trace (env : DialEnv) (cache : Cache) (host : String)
    (tr : List DialEvent) :
    ∀ ev ∈ (busPhase env cache host tr).2.2,
      ev ∈ tr ∨ ev = DialEvent.busLookup ∨ ∃ a, ev = DialEvent.dialAttempt a := by
  intro ev hev
  unfold busPhase at hev
  cases hbus : env.bus with
  | none =>
    rw [hbus] at hev
    rcases List.mem_append.mp hev with h1 | h1
    · exact Or.inl h1
    · exact Or.inr (Or.inl (by simpa using h1))
  | some addrs =>
    rw [hbus] at hev
    rcases tryBusAddrs_trace env cache host (tr ++ [.busLookup]) addrs ev hev with h1 | h1
    · rcases List.mem_append.mp h1 with h2 | h2
      · exact Or.inl h2
      · exact Or.inr (Or.inl (by simpa using h2))
    · exact Or.inr (Or.inr h1)

theorem busPhase_trace_append (env : DialEnv) (cache : Cache) (host : String)
    (tr : List DialEvent) :
    ∃ extra, (busPhase env cache host tr).2.2 = tr ++ extra := by
  unfold busPhase
  cases hbus : env.bus with
  | none => exact ⟨[.busLookup], rfl⟩
  | some addrs =>
    obtain ⟨extra, hextra⟩ := tryBusAddrs_trace_append env cache host (tr ++ [.busLookup]) addrs
    exact ⟨.busLookup :: extra, by simp [hextra]⟩

theorem busPhase_result (env : DialEnv) (cache : Cache) (host : String)
    (tr : List DialEvent) (addrs : List String) (hbus : env.bus = some addrs) :
    (match addrs.find? env.dialOK with
     | some a => (busPhase env cache host tr).1 = .ok a ∧
                 (busPhase env cache host tr).2.1 = cacheSet cache host a
     | none => (busPhase env cache host tr).1 = .error "failed to dial with all methods" ∧
               (busPhase env cache host tr).2.1 = cache) := by
  unfold busPhase
  rw [hbus]
  exact tryBusAddrs_result env cache host (tr ++ [.busLookup]) addrs

/-- C9: for every dial, DNS resolution is attempted first; on DNS success
the resolved IP is dialed (and no cache lookup or host-directory query
happens); only when DNS fails is the cached IP tried, and a working
cached IP is returned with the cache untouched; the cache entry is
cleared only when the cached IP failed to connect; the host directory is
consulted only when both DNS and the cache failed, its addresses are
tried in order, and the first one that connects is returned and stored in
the cache under the hostname. -/
theorem C9_dialer_fallback_order (env : DialEnv) (cache : Cache) (host : String) :
    (dialHost env cache host).2.2.head? = some (.dnsResolve host) ∧
    (∀ ip, env.dns = some ip →
      (dialHost env cache host).2.2 = [.dnsResolve host, .dialAttempt ip] ∧
      (env.dialOK ip = true → (dialHost env cache host).1 = .ok ip) ∧
      (env.dialOK ip = false → (dialHost env cache host).1 = .error "dial failed")) ∧
    (∀ cip, env.dns = none → cacheGet cache host = some cip → env.dialOK cip = true →
      (dialHost env cache host).1 = .ok cip ∧
      (dialHost env cache host).2.1 = cache ∧
      DialEvent.busLookup ∉ (dialHost env cache host).2.2) ∧
    (DialEvent.cacheClear host ∈ (dialHost env cache host).2.2 →
      env.dns = none ∧
      ∃ cip, cacheGet cache host = some cip ∧ env.dialOK cip = false) ∧
    (DialEvent.busLookup ∈ (dialHost env cache host).2.2 →
      env.dns = none ∧
      (cacheGet cache host = none ∨
        ∃ cip, cacheGet cache host = some cip ∧ env.dialOK cip = false)) ∧
    (∀ addrs, DialEvent.busLookup ∈ (dialHost env cache host).2.2 →
      env.bus = some addrs →
      (match addrs.find? env.dialOK with
       | some a => (dialHost env cache host).1 = .ok a ∧
                   cacheGet (dialHost env cache host).2.1 host = some a
       | none => ∃ e, (dialHost env cache host).1 = .error e)) := by
  obtain ⟨dns, dialOK, bus⟩ := env
  cases dns with
  | some ip =>
    cases hok : dialOK ip with
    | true =>
      refine ⟨by simp [dialHost, hok], ?_, ?_, ?_, ?_, ?_⟩
      · rintro ip' ⟨rfl⟩
        simp [dialHost, hok]
      · rintro cip ⟨⟩
      · intro hmem; simp [dialHost, hok] at hmem
      · intro hmem; simp [dialHost, hok] at hmem
      · intro addrs hmem; simp [dialHost, hok] at hmem
    | false =>
      refine ⟨by simp [dialHost, hok], ?_, ?_, ?_, ?_, ?_⟩
      · rintro ip' ⟨rfl⟩
        simp [dialHost, hok]
      · rintro cip ⟨⟩
      · intro hmem; simp [dialHost, hok] at hmem
      · intro hmem; simp [dialHost, hok] at hmem
      · intro addrs hmem; simp [dialHost, hok] at hmem
  | none =>
    cases hc : cacheGet cache host with
    | some cip =>
      cases hok : dialOK cip with
      | true =>
        refine ⟨by simp [dialHost, hc, hok], ?_, ?_, ?_, ?_, ?_⟩
        · rintro ip' ⟨⟩
        · rintro cip' - hc' -
          cases hc'
          simp [dialHost, hc, hok]
        · intro hmem; simp [dialHost, hc, hok] at hmem
        · intro hmem; simp [dialHost, hc, hok] at hmem
        · intro addrs hmem; simp [dialHost, hc, hok] at hmem
      | false =>
        have hunfold : dialHost ⟨none, dialOK, bus⟩ cache host
            = busPhase ⟨none, dialOK, bus⟩ (cacheClear cache host) host
                [.dnsResolve host, .cacheLookup host, .dialAttempt cip, .cacheClear host] := by
          simp [dialHost, hc, hok]
        refine ⟨?_, ?_, ?_, ?_, ?_, ?_⟩
        · rw [hunfold]
          obtain ⟨extra, hextra⟩ := busPhase_trace_append ⟨none, dialOK, bus⟩
            (cacheClear cache host) host
            [.dnsResolve host, .cacheLookup host, .dialAttempt cip, .cacheClear host]
          rw [hextra]; rfl
        · rintro ip' ⟨⟩
        · rintro cip' - hc' hok'
          cases hc'
          simp [hok] at hok'
        · intro _
          exact ⟨rfl, cip, rfl, hok⟩
        · intro _
          exact ⟨rfl, Or.inr ⟨cip, rfl, hok⟩⟩
        · rintro addrs - hbus
          rw [hunfold]
          have h := busPhase_result ⟨none, dialOK, bus⟩ (cacheClear cache host) host
            [.dnsResolve host, .cacheLookup host, .dialAttempt cip, .cacheClear host] addrs hbus
          cases hfind : addrs.find? dialOK with
          | some a =>
            rw [hfind] at h
            exact ⟨h.1, by rw [h.2]; exact cacheGet_cacheSet _ _ _⟩
          | none =>
            rw [hfind] at h
            exact ⟨_, h.1⟩
    | none =>
      have hunfold : dialHost ⟨none, dialOK, bus⟩ cache host
          = busPhase ⟨none, dialOK, bus⟩ cache host [.dnsResolve host, .cacheLookup host] := by
        simp [dialHost, hc]
      refine ⟨?_, ?_, ?_, ?_, ?_, ?_⟩
      · rw [hunfold]
        obtain ⟨extra, hextra⟩ := busPhase_trace_append ⟨none, dialOK, bus⟩
          cache host [.dnsResolve host, .cacheLookup host]
        rw [hextra]; rfl
      · rintro ip' ⟨⟩
      · rintro cip' - hc' -; cases hc'
      · intro hmem
        rw [hunfold] at hmem
        rcases busPhase_trace ⟨none, dialOK, bus⟩ cache host _ _ hmem with h1 | h1 | h1
        · simp at h1
        · cases h1
        · rcases h1 with ⟨a, ha⟩; cases ha
      · intro _
        exact ⟨rfl, Or.inl rfl⟩
      · rintro addrs - hbus
        rw [hunfold]
        have h := busPhase_result ⟨none, dialOK, bus⟩ cache host
          [.dnsResolve host, .cacheLookup host] addrs hbus
        cases hfind : addrs.find? dialOK with
        | some a =>
          rw [hfind] at h
          exact ⟨h.1, by rw [h.2]; exact cacheGet_cacheSet _ _ _⟩
        | none =>
          rw [hfind] at h
          exact ⟨_, h.1⟩

end Dialer

namespace Dialer

/-- Witness for C9 at a concrete environment where DNS succeeds and every
dial connects. -/
theorem C9_dialer_fallback_order_witness :
    (dialHost ⟨some "10.0.0.1", fun _ => true, none⟩ [] "example.com").1 = .ok "10.0.0.1" :=
  ((C9_dialer_fallback_order ⟨some "10.0.0.1", fun _ => true, none⟩ [] "example.com").2.1
    "10.0.0.1" rfl).2.1 rfl

end Dialer

/-! ## C8 -/

/-- C8: RecordContractSpending processes its records in order and never
fails on an unknown contract (the model is a total function, mirroring
the source's `return nil` for `gorm.ErrRecordNotFound`): a record whose
FCID matches no active contract leaves the store unchanged, and a record
whose contract exists yields the store in which that contract's upload,
download and fund-account totals are increased by the record's respective
amounts while every other contract row is untouched (and no other table
is touched at all). -/
theorem C8_record_spending_skips_unknown (db : Stores.DB)
    (r : Stores.ContractSpendingRecord) (rest : List Stores.ContractSpendingRecord) :
    (Stores.recordContractSpending db (r :: rest)
        = Stores.recordContractSpending (Stores.recordOneSpending db r) rest) ∧
    (Stores.contractByFCID db r.contractId = none → Stores.recordOneSpending db r = db) ∧
    (∀ c, Stores.contractByFCID db r.contractId = some c →
      c ∈ db.contracts ∧
      { c with uploadSpending := c.uploadSpending + r.uploads
               downloadSpending := c.downloadSpending + r.downloads
               fundAccountSpending := c.fundAccountSpending + r.fundAccount }
        ∈ (Stores.recordOneSpending db r).contracts ∧
      (∀ t ∈ db.contracts, t.id ≠ c.id → t ∈ (Stores.recordOneSpending db r).contracts) ∧
      (Stores.recordOneSpending db r).objects = db.objects ∧
      (Stores.recordOneSpending db r).archivedContracts = db.archivedContracts) := by
  refine ⟨rfl, ?_, ?_⟩
  · intro hnone
    unfold Stores.contractByFCID at hnone
    simp only [Stores.recordOneSpending]
    rw [hnone]
  · intro c hc
    have hmem : c ∈ db.contracts := List.mem_of_find?_eq_some hc
    refine ⟨hmem, ?_, ?_, ?_, ?_⟩
    · simp only [Stores.recordOneSpending, Stores.contractByFCID] at hc ⊢
      rw [hc]
      refine List.mem_map.mpr ⟨c, hmem, ?_⟩
      simp
    · intro t ht hne
      simp only [Stores.recordOneSpending, Stores.contractByFCID] at hc ⊢
      rw [hc]
      refine List.mem_map.mpr ⟨t, ht, ?_⟩
      simp [hne]
    · simp only [Stores.recordOneSpending, Stores.contractByFCID] at hc ⊢
      rw [hc]
    · simp only [Stores.recordOneSpending, Stores.contractByFCID] at hc ⊢
      rw [hc]

/-- Witness for C8 on a one-contract store. -/
theorem C8_record_spending_skips_unknown_witness :
    (⟨1, 42, 0, 0, 0, 0, 10 + 5, 20 + 6, 30 + 7⟩ : Stores.dbContract) ∈
      (Stores.recordOneSpending
        { hosts := [], contracts := [⟨1, 42, 0, 0, 0, 0, 10, 20, 30⟩], archivedContracts := []
          contractSets := [], objects := [], slices := [], slabs := [], shards := []
          sectors := [], contractSectors := [], hostSectors := [], nextId := 2 }
        ⟨42, 5, 6, 7⟩).contracts := by
  have h := (C8_record_spending_skips_unknown
    { hosts := [], contracts := [⟨1, 42, 0, 0, 0, 0, 10, 20, 30⟩], archivedContracts := []
      contractSets := [], objects := [], slices := [], slabs := [], shards := []
      sectors := [], contractSectors := [], hostSectors := [], nextId := 2 }
    ⟨42, 5, 6, 7⟩ []).2.2 ⟨1, 42, 0, 0, 0, 0, 10, 20, 30⟩ rfl
  exact h.2.1

/-! ## C4 -/

theorem Stores.addContract_ok (db : Stores.DB) (c : Stores.ContractRevision)
    (totalCost startHeight renewedFrom : Nat) (db' : Stores.DB) (nc : Stores.dbContract)
    (hok : Stores.addContract db c totalCost startHeight renewedFrom = .ok (db', nc)) :
    ∃ h, db.hosts.find? (fun t => t.publicKey == c.hostKey) = some h ∧
      db' = { db with contracts := db.contracts ++ [nc], nextId := db.nextId + 1 } ∧
      nc = { id := db.nextId, fcid := c.fcid, hostId := h.id, renewedFrom := renewedFrom
             startHeight := startHeight, totalCost := totalCost
             uploadSpending := 0, downloadSpending := 0, fundAccountSpending := 0 } := by
  unfold Stores.addContract at hok
  cases hh : db.hosts.find? (fun t => t.publicKey == c.hostKey) with
  | none => rw [hh] at hok; cases hok
  | some h =>
    rw [hh] at hok
    cases hok
    exact ⟨h, rfl, rfl, rfl⟩

/-- C4: AddRenewedContract is atomic: on success the store contains the
archived copy of the old contract (RenewedTo = the new contract's FCID,
reason "renewed", spending totals preserved) and the new active contract
(RenewedFrom = the old FCID), the old contract row is gone from the
active table and every other active contract survives; on any failure
the transaction commits nothing and the store is unchanged. -/
theorem C4_add_renewed_contract_atomic (db : Stores.DB) (c : Stores.ContractRevision)
    (totalCost startHeight renewedFrom : Nat) (hwf : Stores.WF db) :
    (∀ e, Stores.addRenewedContract db c totalCost startHeight renewedFrom = .error e →
      Stores.addRenewedContractState db c totalCost startHeight renewedFrom = db) ∧
    (∀ db' nc, Stores.addRenewedContract db c totalCost startHeight renewedFrom = .ok (db', nc) →
      ∃ oldC, Stores.contractByFCID db renewedFrom = some oldC ∧
        (∃ a ∈ db'.archivedContracts,
          a.fcid = oldC.fcid ∧ a.renewedTo = c.fcid ∧
          a.reason = Stores.archivalReasonRenewed ∧
          a.uploadSpending = oldC.uploadSpending ∧
          a.downloadSpending = oldC.downloadSpending ∧
          a.fundAccountSpending = oldC.fundAccountSpending ∧
          a.startHeight = oldC.startHeight) ∧
        nc ∈ db'.contracts ∧ nc.fcid = c.fcid ∧ nc.renewedFrom = renewedFrom ∧
        oldC ∉ db'.contracts ∧
        (∀ t ∈ db.contracts, t.fcid ≠ renewedFrom → t ∈ db'.contracts)) := by
  constructor
  · intro e he
    simp [Stores.addRenewedContractState, he]
  · intro db' nc hok
    unfold Stores.addRenewedContract at hok
    cases hfind : Stores.contractByFCID db renewedFrom with
    | none => rw [hfind] at hok; cases hok
    | some oldC =>
      rw [hfind] at hok
      refine ⟨oldC, rfl, ?_⟩
      have hfind2 : List.find? (fun t : Stores.dbContract => t.fcid == renewedFrom)
          db.contracts = some oldC := hfind
      have hpred := List.find?_some hfind2
      have holdmem : oldC ∈ db.contracts := List.mem_of_find?_eq_some hfind2
      have holdfcid : oldC.fcid = renewedFrom := by simpa using hpred
      replace hok : Stores.addContract
          (Stores.removeContract
            { db with archivedContracts := db.archivedContracts ++
                [{ fcid := oldC.fcid
                   host := ((db.hosts.find? (fun t => t.id == oldC.hostId)).map (·.publicKey)).getD 0
                   renewedTo := c.fcid, reason := Stores.archivalReasonRenewed
                   uploadSpending := oldC.uploadSpending
                   downloadSpending := oldC.downloadSpending
                   fundAccountSpending := oldC.fundAccountSpending
                   startHeight := oldC.startHeight }] }
            renewedFrom) c totalCost startHeight renewedFrom = .ok (db', nc) := hok
      obtain ⟨h, hh, hdb', hnc⟩ := Stores.addContract_ok _ _ _ _ _ _ _ hok
      subst hdb'
      refine ⟨?_, ?_, ?_, ?_, ?_, ?_⟩
      · exact ⟨_, List.mem_append_right _ (List.mem_singleton.mpr rfl),
          rfl, rfl, rfl, rfl, rfl, rfl, rfl⟩
      · exact List.mem_append_right _ (List.mem_singleton.mpr rfl)
      · rw [hnc]
      · rw [hnc]
      · intro hmemold
        rcases List.mem_append.mp hmemold with h1 | h1
        · have := (List.mem_filter.mp h1).2
          simp [holdfcid] at this
        · have h2 := List.mem_singleton.mp h1
          have hlt : oldC.id < db.nextId := hwf.2.2.2.2.2.1 oldC holdmem
          have h3 := congrArg Stores.dbContract.id h2
          rw [hnc] at h3
          have hid : oldC.id = db.nextId := h3.trans rfl
          omega
      · intro t ht htne
        apply List.mem_append_left
        exact List.mem_filter.mpr ⟨ht, by simpa using htne⟩

/-- Witness for C4: a concrete renewal on a one-host, one-contract store. -/
theorem C4_add_renewed_contract_atomic_witness :
    ∃ db' nc, Stores.addRenewedContract
        { hosts := [⟨1, 77⟩], contracts := [⟨2, 42, 1, 0, 5, 100, 10, 20, 30⟩]
          archivedContracts := [], contractSets := [("default", [2])]
          objects := [], slices := [], slabs := [], shards := [], sectors := []
          contractSectors := [], hostSectors := [], nextId := 3 }
        ⟨43, 77⟩ 200 9 42 = .ok (db', nc) ∧
      nc ∈ db'.contracts ∧ nc.fcid = 43 ∧ nc.renewedFrom = 42 ∧
      (⟨2, 42, 1, 0, 5, 100, 10, 20, 30⟩ : Stores.dbContract) ∉ db'.contracts := by
  have h := (C4_add_renewed_contract_atomic
    { hosts := [⟨1, 77⟩], contracts := [⟨2, 42, 1, 0, 5, 100, 10, 20, 30⟩]
      archivedContracts := [], contractSets := [("default", [2])]
      objects := [], slices := [], slabs := [], shards := [], sectors := []
      contractSectors := [], hostSectors := [], nextId := 3 }
    ⟨43, 77⟩ 200 9 42 (by decide)).2
  obtain ⟨db', nc, hok⟩ :
      ∃ db' nc, Stores.addRenewedContract
        { hosts := [⟨1, 77⟩], contracts := [⟨2, 42, 1, 0, 5, 100, 10, 20, 30⟩]
          archivedContracts := [], contractSets := [("default", [2])]
          objects := [], slices := [], slabs := [], shards := [], sectors := []
          contractSectors := [], hostSectors := [], nextId := 3 }
        ⟨43, 77⟩ 200 9 42 = .ok (db', nc) := ⟨_, _, rfl⟩
  obtain ⟨oldC, holdC, -, hnc, hfcid, hrf, hnotold, -⟩ := h db' nc hok
  have heq : oldC = ⟨2, 42, 1, 0, 5, 100, 10, 20, 30⟩ :=
    Option.some.inj (holdC.symm.trans rfl)
  rw [heq] at hnotold
  exact ⟨db', nc, hok, hnc, hfcid, hrf, hnotold⟩

/-! ## C1 -/

theorem Stores.insertByBadDesc_mem (key : Stores.dbSlab → Nat) (x : Stores.dbSlab)
    (l : List Stores.dbSlab) :
    ∀ y ∈ Stores.insertByBadDesc key x l, y = x ∨ y ∈ l := by
  induction l with
  | nil => intro y hy; exact Or.inl (by simpa [Stores.insertByBadDesc] using hy)
  | cons z zs ih =>
    intro y hy
    unfold Stores.insertByBadDesc at hy
    by_cases h : key z < key x
    · rw [if_pos h] at hy
      rcases List.mem_cons.mp hy with hy | hy
      · exact Or.inl hy
      · exact Or.inr hy
    · rw [if_neg h] at hy
      rcases List.mem_cons.mp hy with hy | hy
      · exact Or.inr (by simp [hy])
      · rcases ih y hy with h1 | h1
        · exact Or.inl h1
        · exact Or.inr (List.mem_cons_of_mem z h1)

theorem Stores.insertByBadDesc_pairwise (key : Stores.dbSlab → Nat) (x : Stores.dbSlab)
    (l : List Stores.dbSlab) (h : l.Pairwise (fun a b => key b ≤ key a)) :
    (Stores.insertByBadDesc key x l).Pairwise (fun a b => key b ≤ key a) := by
  induction l with
  | nil => simp [Stores.insertByBadDesc]
  | cons z zs ih =>
    unfold Stores.insertByBadDesc
    by_cases hlt : key z < key x
    · rw [if_pos hlt]
      refine List.Pairwise.cons ?_ h
      intro y hy
      rcases List.mem_cons.mp hy with hy | hy
      · subst hy; omega
      · have := List.rel_of_pairwise_cons h hy
        omega
    · rw [if_neg hlt]
      refine List.Pairwise.cons ?_ (ih (List.Pairwise.of_cons h))
      intro y hy
      rcases Stores.insertByBadDesc_mem key x zs y hy with h1 | h1
      · subst h1; omega
      · exact List.rel_of_pairwise_cons h h1

theorem Stores.sortByBadDesc_pairwise (key : Stores.dbSlab → Nat) (l : List Stores.dbSlab) :
    (Stores.sortByBadDesc key l).Pairwise (fun a b => key b ≤ key a) := by
  induction l with
  | nil => simp [Stores.sortByBadDesc]
  | cons z zs ih => exact Stores.insertByBadDesc_pairwise key z _ ih

theorem Stores.sortByBadDesc_mem (key : Stores.dbSlab → Nat) (l : List Stores.dbSlab) :
    ∀ y ∈ Stores.sortByBadDesc key l, y ∈ l := by
  induction l with
  | nil => intro y hy; simp [Stores.sortByBadDesc] at hy
  | cons z zs ih =>
    intro y hy
    rcases Stores.insertByBadDesc_mem key z _ y hy with h1 | h1
    · simp [h1]
    · exact List.mem_cons_of_mem z (ih y h1)

/-- C1: every slab produced by UnhealthySlabs has strictly fewer good
sectors (distinct hosts holding one of its shards under a contract of the
named set) than total shards, the produced rows are ordered by
non-increasing shard deficit, and at most `limit` slabs are returned. -/
theorem C1_unhealthy_slabs_shape (db : Stores.DB) (set : String) (limit : Nat) :
    (Stores.unhealthySlabs db set limit).length ≤ limit ∧
    (∀ slb ∈ Stores.unhealthySlabRows db set limit,
      Stores.numGoodSectors db set slb < slb.totalShards) ∧
    (Stores.unhealthySlabRows db set limit).Pairwise
      (fun a b => Stores.numBadSectors db set b ≤ Stores.numBadSectors db set a) := by
  refine ⟨?_, ?_, ?_⟩
  · rw [Stores.unhealthySlabs, List.length_map, Stores.unhealthySlabRows]
    exact (List.length_take _ _).le.trans (Nat.min_le_left _ _)
  · intro slb hmem
    have h1 : slb ∈ Stores.sortByBadDesc (Stores.numBadSectors db set)
        (db.slabs.filter (fun slb =>
          !(Stores.goodHosts db set slb).isEmpty &&
          Stores.numGoodSectors db set slb < slb.totalShards)) := by
      exact List.mem_of_mem_take (by simpa [Stores.unhealthySlabRows] using hmem)
    have h2 := Stores.sortByBadDesc_mem _ _ slb h1
    have h3 := (List.mem_filter.mp h2).2
    simp only [Bool.and_eq_true, decide_eq_true_eq] at h3
    exact h3.2
  · refine List.Pairwise.sublist (List.take_sublist _ _) ?_
    exact Stores.sortByBadDesc_pairwise _ _

/-- Witness for C1: the spec's 2-of-4 scenario slab counts two good
sectors, fewer than its four shards. -/
theorem C1_unhealthy_slabs_shape_witness :
    Stores.numGoodSectors Stores.scenarioDB "default" ⟨10, 0, 5, 2, 4⟩ < 4 :=
  (C1_unhealthy_slabs_shape Stores.scenarioDB "default" 10).2.1 ⟨10, 0, 5, 2, 4⟩ (by decide)

/-! ## C2 -/

/-- C2: evaluation of the UnhealthySlabs query at the two stores of the
spec's scenarios.  In the 2-of-4 scenario the slab counts two good
sectors and is returned.  But a slab whose shards are under no contract
of the set at all (goodSectors = 0 < totalShards = 4) is NOT returned —
the query's INNER JOIN against the contract-set membership drops every
row of such a slab before grouping, contradicting both the claim and the
function's own documentation ("returns up to limit slabs that do not
reach full redundancy"). -/
theorem C2_zero_redundancy_slab_dropped :
    Stores.numGoodSectors Stores.orphanSlabDB "default" ⟨10, 0, 5, 2, 4⟩ = 0 ∧
    (⟨10, 0, 5, 2, 4⟩ : Stores.dbSlab) ∈ Stores.orphanSlabDB.slabs ∧
    Stores.unhealthySlabs Stores.orphanSlabDB "default" 10 = [] ∧
    Stores.numGoodSectors Stores.scenarioDB "default" ⟨10, 0, 5, 2, 4⟩ = 2 ∧
    (Stores.unhealthySlabRows Stores.scenarioDB "default" 10).map (fun slb => slb.id) = [10] := by
  refine ⟨by decide, by decide, by decide, by decide, by decide⟩

/-! ## Frame lemmas for the object write path -/

theorem Stores.upsertSector_frame (db : Stores.DB) (h r : Nat) :
    (Stores.upsertSector db h r).1.objects = db.objects ∧
    (Stores.upsertSector db h r).1.slices = db.slices ∧
    (Stores.upsertSector db h r).1.slabs = db.slabs ∧
    (Stores.upsertSector db h r).1.shards = db.shards ∧
    (Stores.upsertSector db h r).1.contracts = db.contracts ∧
    (Stores.upsertSector db h r).1.hosts = db.hosts ∧
    (Stores.upsertSector db h r).1.contractSectors = db.contractSectors ∧
    (Stores.upsertSector db h r).1.hostSectors = db.hostSectors ∧
    db.nextId ≤ (Stores.upsertSector db h r).1.nextId := by
  unfold Stores.upsertSector
  cases hf : db.sectors.find? (fun sec => sec.root == r) <;> simp [Nat.le_succ]

theorem Stores.insertShard_frame (db : Stores.DB) (slabId : Nat)
    (used : List (Nat × Nat)) (sh : Stores.Sector) :
    (Stores.insertShard db slabId used sh).objects = db.objects ∧
    (Stores.insertShard db slabId used sh).slices = db.slices ∧
    (Stores.insertShard db slabId used sh).slabs = db.slabs ∧
    db.nextId ≤ (Stores.insertShard db slabId used sh).nextId := by
  obtain ⟨h1, h2, h3, -, -, -, -, -, h9⟩ := Stores.upsertSector_frame db sh.host sh.root
  simp only [Stores.insertShard]
  split <;> split <;> simp [h1, h2, h3] <;> omega

theorem Stores.foldShards_frame (shards : List Stores.Sector) (db : Stores.DB)
    (slabId : Nat) (used : List (Nat × Nat)) :
    (shards.foldl (fun db sh => Stores.insertShard db slabId used sh) db).objects = db.objects ∧
    (shards.foldl (fun db sh => Stores.insertShard db slabId used sh) db).slices = db.slices ∧
    (shards.foldl (fun db sh => Stores.insertShard db slabId used sh) db).slabs = db.slabs ∧
    db.nextId ≤ (shards.foldl (fun db sh => Stores.insertShard db slabId used sh) db).nextId := by
  induction shards generalizing db with
  | nil => simp
  | cons sh rest ih =>
    obtain ⟨h1, h2, h3, h4⟩ := Stores.insertShard_frame db slabId used sh
    obtain ⟨g1, g2, g3, g4⟩ := ih (Stores.insertShard db slabId used sh)
    refine ⟨?_, ?_, ?_, ?_⟩
    · rw [List.foldl_cons, g1, h1]
    · rw [List.foldl_cons, g2, h2]
    · rw [List.foldl_cons, g3, h3]
    · rw [List.foldl_cons]; omega

theorem Stores.insertSlice_effect (used : List (Nat × Nat)) (objId : Nat)
    (db : Stores.DB) (ss : Stores.SlabSlice) :
    (Stores.insertSlice used objId db ss).slices
        = db.slices ++ [⟨db.nextId, objId, ss.offset, ss.length⟩] ∧
    (Stores.insertSlice used objId db ss).slabs
        = db.slabs ++ [⟨db.nextId + 1, db.nextId, ss.slab.key, ss.slab.minShards,
                        ss.slab.shards.length⟩] ∧
    (Stores.insertSlice used objId db ss).objects = db.objects ∧
    db.nextId + 2 ≤ (Stores.insertSlice used objId db ss).nextId := by
  unfold Stores.insertSlice
  obtain ⟨h1, h2, h3, h4⟩ := Stores.foldShards_frame ss.slab.shards
    { db with
      slices := db.slices ++ [{ id := db.nextId, dbObjectId := objId
                                offset := ss.offset, length := ss.length }]
      slabs := (db.slabs ++ [{ id := db.nextId + 1, dbSliceId := db.nextId, key := ss.slab.key
                               minShards := ss.slab.minShards
                               totalShards := ss.slab.shards.length }])
      nextId := db.nextId + 1 + 1 }
    (db.nextId + 1) used
  refine ⟨?_, ?_, ?_, ?_⟩
  · rw [h2]
  · rw [h3]
  · rw [h1]
  · exact h4

theorem Stores.foldInsert_read (ss_list : List Stores.SlabSlice) (used : List (Nat × Nat))
    (objId : Nat) (db : Stores.DB)
    (hsl : ∀ sl ∈ db.slices, sl.id < db.nextId)
    (hsb : ∀ sb ∈ db.slabs, sb.dbSliceId < db.nextId)
    (hoid : objId < db.nextId) :
    Stores.readSliceProjs (ss_list.foldl (Stores.insertSlice used objId) db) objId
      = Stores.readSliceProjs db objId ++ ss_list.map Stores.sliceProj := by
  induction ss_list generalizing db with
  | nil => simp
  | cons ss rest ih =>
    obtain ⟨e1, e2, e3, e4⟩ := Stores.insertSlice_effect used objId db ss
    have hsl1 : ∀ sl ∈ (Stores.insertSlice used objId db ss).slices,
        sl.id < (Stores.insertSlice used objId db ss).nextId := by
      rw [e1]; intro sl hmem
      rcases List.mem_append.mp hmem with h | h
      · have := hsl sl h; omega
      · have := List.mem_singleton.mp h
        subst this; simp; omega
    have hsb1 : ∀ sb ∈ (Stores.insertSlice used objId db ss).slabs,
        sb.dbSliceId < (Stores.insertSlice used objId db ss).nextId := by
      rw [e2]; intro sb hmem
      rcases List.mem_append.mp hmem with h | h
      · have := hsb sb h; omega
      · have := List.mem_singleton.mp h
        subst this; simp; omega
    have hoid1 : objId < (Stores.insertSlice used objId db ss).nextId := by omega
    have hstep : Stores.readSliceProjs (Stores.insertSlice used objId db ss) objId
        = Stores.readSliceProjs db objId ++ [Stores.sliceProj ss] := by
      unfold Stores.readSliceProjs
      rw [e1, List.filter_append]
      have hnew : List.filter (fun sl => sl.dbObjectId == objId)
          [(⟨db.nextId, objId, ss.offset, ss.length⟩ : Stores.dbSlice)]
            = [⟨db.nextId, objId, ss.offset, ss.length⟩] := by simp
      rw [hnew, List.map_append, List.map_append]
      have hold : ∀ sl ∈ db.slices.filter (fun sl => sl.dbObjectId == objId),
          Stores.sliceProj (Stores.convertSlice (Stores.insertSlice used objId db ss) sl)
            = Stores.sliceProj (Stores.convertSlice db sl) := by
        intro sl hmem
        have hid : sl.id < db.nextId := hsl sl (List.mem_of_mem_filter hmem)
        unfold Stores.convertSlice
        rw [e2, List.find?_append]
        have hnone : List.find? (fun slb => slb.dbSliceId == sl.id)
            [(⟨db.nextId + 1, db.nextId, ss.slab.key, ss.slab.minShards,
               ss.slab.shards.length⟩ : Stores.dbSlab)] = none := by
          simp; omega
        rw [hnone, Option.or_none]
        cases db.slabs.find? (fun slb => slb.dbSliceId == sl.id) <;>
          simp [Stores.sliceProj, Stores.convertSlab]
      have hnewconv : Stores.sliceProj (Stores.convertSlice (Stores.insertSlice used objId db ss)
          ⟨db.nextId, objId, ss.offset, ss.length⟩) = Stores.sliceProj ss := by
        unfold Stores.convertSlice
        rw [e2, List.find?_append]
        have h1 : List.find? (fun slb => slb.dbSliceId == (⟨db.nextId, objId, ss.offset,
            ss.length⟩ : Stores.dbSlice).id) db.slabs = none := by
          apply List.find?_eq_none.mpr
          intro sb hmem
          have := hsb sb hmem
          simp; omega
        rw [h1, Option.none_or]
        simp [Stores.sliceProj, Stores.convertSlab]
      have hleft : ((db.slices.filter (fun sl => sl.dbObjectId == objId)).map
            (Stores.convertSlice (Stores.insertSlice used objId db ss))).map Stores.sliceProj
          = Stores.readSliceProjs db objId := by
        unfold Stores.readSliceProjs
        rw [List.map_map, List.map_map]
        exact List.map_congr_left (fun sl hmem => hold sl hmem)
      have hright : (([(⟨db.nextId, objId, ss.offset, ss.length⟩ : Stores.dbSlice)].map
            (Stores.convertSlice (Stores.insertSlice used objId db ss))).map Stores.sliceProj)
          = [Stores.sliceProj ss] := by
        simp only [List.map_cons, List.map_nil]
        rw [hnewconv]
      rw [hleft, hright]
      rfl
    rw [List.foldl_cons, ih (Stores.insertSlice used objId db ss) hsl1 hsb1 hoid1, hstep]
    simp

theorem Stores.removeObject_props (db : Stores.DB) (key : String) :
    (Stores.removeObject db key).objects = db.objects.filter (fun t => !(t.objectId == key)) ∧
    (∀ sl ∈ (Stores.removeObject db key).slices, sl ∈ db.slices) ∧
    (∀ sb ∈ (Stores.removeObject db key).slabs, sb ∈ db.slabs) ∧
    (Stores.removeObject db key).nextId = db.nextId := by
  refine ⟨rfl, ?_, ?_, rfl⟩
  · intro sl h; exact List.mem_of_mem_filter h
  · intro sb h; exact List.mem_of_mem_filter h

theorem Stores.foldSlices_objects (ss_list : List Stores.SlabSlice) (used : List (Nat × Nat))
    (objId : Nat) (db : Stores.DB) :
    (ss_list.foldl (Stores.insertSlice used objId) db).objects = db.objects := by
  induction ss_list generalizing db with
  | nil => rfl
  | cons ss rest ih =>
    rw [List.foldl_cons, ih, (Stores.insertSlice_effect used objId db ss).2.2.1]

/-! ## C3 -/

/-- C3: UpdateObject fails with the missing-contract error, committing
nothing, as soon as any shard of any slice references a host absent from
the host→contract map (the check runs before the transaction); with a
complete map it succeeds and atomically replaces the object at the key:
afterwards exactly one object row carries the key — the freshly inserted
one — and the rows of every other key are untouched. -/
theorem C3_update_object_missing_contract (db : Stores.DB) (key : String)
    (o : Stores.Object) (used : List (Nat × Nat)) :
    ((∃ ss ∈ o.slabs, ∃ sh ∈ ss.slab.shards, Stores.lookupUsed used sh.host = none) →
      Stores.updateObject db key o used = .error "missing contract for host" ∧
      Stores.updateObjectState db key o used = db) ∧
    ((∀ ss ∈ o.slabs, ∀ sh ∈ ss.slab.shards, (Stores.lookupUsed used sh.host).isSome) →
      ∃ db', Stores.updateObject db key o used = .ok db' ∧
        db'.objects.filter (fun t => t.objectId == key)
          = [{ id := db.nextId, objectId := key, key := o.key }] ∧
        db'.objects.filter (fun t => !(t.objectId == key))
          = db.objects.filter (fun t => !(t.objectId == key))) := by
  constructor
  · intro hmissing
    have hif : (o.slabs.any (fun ss => ss.slab.shards.any
        (fun sh => (Stores.lookupUsed used sh.host).isNone))) = true := by
      rcases hmissing with ⟨ss, hss, sh, hsh, hnone⟩
      refine List.any_eq_true.mpr ⟨ss, hss, ?_⟩
      refine List.any_eq_true.mpr ⟨sh, hsh, ?_⟩
      simp [hnone]
    refine ⟨?_, ?_⟩
    · simp [Stores.updateObject, hif]
    · simp [Stores.updateObjectState, Stores.updateObject, hif]
  · intro hcomplete
    have hif : (o.slabs.any (fun ss => ss.slab.shards.any
        (fun sh => (Stores.lookupUsed used sh.host).isNone))) = false := by
      simp only [List.any_eq_false, Bool.not_eq_true]
      intro ss hss sh hsh
      have h := hcomplete ss hss sh hsh
      revert h
      cases Stores.lookupUsed used sh.host <;> simp
    have hok : Stores.updateObject db key o used
        = .ok (o.slabs.foldl
            (Stores.insertSlice used (Stores.removeObject db key).nextId)
            { Stores.removeObject db key with
              objects := (Stores.removeObject db key).objects ++
                [{ id := (Stores.removeObject db key).nextId, objectId := key, key := o.key }]
              nextId := (Stores.removeObject db key).nextId + 1 }) := by
      simp [Stores.updateObject, hif]
    refine ⟨_, hok, ?_, ?_⟩
    · rw [Stores.foldSlices_objects]
      simp only [List.filter_append]
      have h1 : ((Stores.removeObject db key).objects).filter
          (fun t => t.objectId == key) = [] := by
        rw [(Stores.removeObject_props db key).1]
        apply List.filter_eq_nil_iff.mpr
        intro t ht
        have := (List.mem_filter.mp ht).2
        simpa using this
      rw [h1]
      simp [(Stores.removeObject_props db key).2.2.2]
    · rw [Stores.foldSlices_objects]
      simp only [List.filter_append]
      have h2 : List.filter (fun t => !(t.objectId == key))
          [(⟨(Stores.removeObject db key).nextId, key, o.key⟩ : Stores.dbObject)] = [] := by
        simp
      rw [h2]
      rw [(Stores.removeObject_props db key).1]
      simp [List.filter_filter]

/-- Witness for C3: on an empty store, writing an object whose single
shard's host has no entry in the map is rejected with the
missing-contract error. -/
theorem C3_update_object_missing_contract_witness :
    Stores.updateObject
        { hosts := [], contracts := [], archivedContracts := [], contractSets := []
          objects := [], slices := [], slabs := [], shards := [], sectors := []
          contractSectors := [], hostSectors := [], nextId := 0 }
        "k" ⟨99, [⟨⟨5, 2, [⟨7, 1001⟩]⟩, 0, 4⟩]⟩ []
      = .error "missing contract for host" :=
  ((C3_update_object_missing_contract
      { hosts := [], contracts := [], archivedContracts := [], contractSets := []
        objects := [], slices := [], slabs := [], shards := [], sectors := []
        contractSectors := [], hostSectors := [], nextId := 0 }
      "k" ⟨99, [⟨⟨5, 2, [⟨7, 1001⟩]⟩, 0, 4⟩]⟩ []).1
    ⟨⟨⟨5, 2, [⟨7, 1001⟩]⟩, 0, 4⟩, by decide, ⟨7, 1001⟩, by decide, rfl⟩).1

/-! ## C5 -/

/-- C5: an object written through UpdateObject with a complete
host→contract map and read back through Object under the same key
round-trips exactly on slice offsets and lengths, per-slab minShards and
slab encryption keys (the object's own encryption key as well). -/
theorem C5_object_roundtrip (db : Stores.DB) (key : String) (o : Stores.Object)
    (used : List (Nat × Nat)) (hwf : Stores.WF db)
    (hcomplete : ∀ ss ∈ o.slabs, ∀ sh ∈ ss.slab.shards, (Stores.lookupUsed used sh.host).isSome) :
    ∃ db', Stores.updateObject db key o used = .ok db' ∧
      ∃ o', Stores.objectGet db' key = .ok o' ∧
        o'.key = o.key ∧
        o'.slabs.map Stores.sliceProj = o.slabs.map Stores.sliceProj := by
  have hif : (o.slabs.any (fun ss => ss.slab.shards.any
      (fun sh => (Stores.lookupUsed used sh.host).isNone))) = false := by
    simp only [List.any_eq_false, Bool.not_eq_true]
    intro ss hss sh hsh
    have h := hcomplete ss hss sh hsh
    revert h
    cases Stores.lookupUsed used sh.host <;> simp
  have hok : Stores.updateObject db key o used
      = .ok (o.slabs.foldl
          (Stores.insertSlice used (Stores.removeObject db key).nextId)
          { Stores.removeObject db key with
            objects := (Stores.removeObject db key).objects ++
              [{ id := (Stores.removeObject db key).nextId, objectId := key, key := o.key }]
            nextId := (Stores.removeObject db key).nextId + 1 }) := by
    simp [Stores.updateObject, hif]
  obtain ⟨hro, hrsl, hrsb, hrn⟩ := Stores.removeObject_props db key
  set db0 : Stores.DB :=
    { Stores.removeObject db key with
      objects := (Stores.removeObject db key).objects ++
        [{ id := (Stores.removeObject db key).nextId, objectId := key, key := o.key }]
      nextId := (Stores.removeObject db key).nextId + 1 } with hdb0
  set dbf : Stores.DB := o.slabs.foldl
    (Stores.insertSlice used (Stores.removeObject db key).nextId) db0 with hdbf
  refine ⟨dbf, hok, ?_⟩
  have hsl0 : ∀ sl ∈ db0.slices, sl.id < db0.nextId := by
    intro sl hmem
    have h1 : sl ∈ db.slices := hrsl sl (by simpa [hdb0] using hmem)
    have := (hwf.2.1 sl h1).1
    simp [hdb0, hrn]
    omega
  have hsb0 : ∀ sb ∈ db0.slabs, sb.dbSliceId < db0.nextId := by
    intro sb hmem
    have h1 : sb ∈ db.slabs := hrsb sb (by simpa [hdb0] using hmem)
    have := (hwf.2.2.1 sb h1).2
    simp [hdb0, hrn]
    omega
  have hoid0 : (Stores.removeObject db key).nextId < db0.nextId := by
    simp [hdb0]
  have hread := Stores.foldInsert_read o.slabs used (Stores.removeObject db key).nextId
    db0 hsl0 hsb0 hoid0
  have hempty : Stores.readSliceProjs db0 (Stores.removeObject db key).nextId = [] := by
    unfold Stores.readSliceProjs
    have : db0.slices.filter
        (fun sl => sl.dbObjectId == (Stores.removeObject db key).nextId) = [] := by
      apply List.filter_eq_nil_iff.mpr
      intro sl hmem
      have h1 : sl ∈ db.slices := hrsl sl (by simpa [hdb0] using hmem)
      have h2 := (hwf.2.1 sl h1).2
      rw [hrn]
      simp
      omega
    rw [this]
    rfl
  have hfind : dbf.objects.find? (fun t => t.objectId == key)
      = some { id := (Stores.removeObject db key).nextId, objectId := key, key := o.key } := by
    have hobj : dbf.objects = (Stores.removeObject db key).objects ++
        [{ id := (Stores.removeObject db key).nextId, objectId := key, key := o.key }] := by
      rw [hdbf, Stores.foldSlices_objects]
    rw [hobj, List.find?_append]
    have h1 : (Stores.removeObject db key).objects.find? (fun t => t.objectId == key) = none := by
      apply List.find?_eq_none.mpr
      intro t ht
      rw [hro] at ht
      have := (List.mem_filter.mp ht).2
      simpa using this
    rw [h1, Option.none_or]
    simp
  have hget : Stores.objectGet dbf key = .ok
      { key := o.key
        slabs := (dbf.slices.filter (fun sl =>
          sl.dbObjectId == (Stores.removeObject db key).nextId)).map (Stores.convertSlice dbf) } := by
    unfold Stores.objectGet
    rw [hfind]
  refine ⟨_, hget, rfl, ?_⟩
  · show ((dbf.slices.filter (fun sl =>
        sl.dbObjectId == (Stores.removeObject db key).nextId)).map
          (Stores.convertSlice dbf)).map Stores.sliceProj
      = o.slabs.map Stores.sliceProj
    have : ((dbf.slices.filter (fun sl =>
        sl.dbObjectId == (Stores.removeObject db key).nextId)).map
          (Stores.convertSlice dbf)).map Stores.sliceProj
        = Stores.readSliceProjs dbf (Stores.removeObject db key).nextId := rfl
    rw [this, hdbf, hread, hempty]
    simp

/-- Witness for C5: a one-slab object written to the empty store reads
back with its offset, length, slab key and minShards intact. -/
theorem C5_object_roundtrip_witness :
    ∃ db', Stores.updateObject
        { hosts := [], contracts := [], archivedContracts := [], contractSets := []
          objects := [], slices := [], slabs := [], shards := [], sectors := []
          contractSectors := [], hostSectors := [], nextId := 0 }
        "k" ⟨99, [⟨⟨5, 2, [⟨7, 1001⟩]⟩, 0, 4⟩]⟩ [(7, 42)] = .ok db' ∧
      ∃ o', Stores.objectGet db' "k" = .ok o' ∧
        o'.key = 99 ∧ o'.slabs.map Stores.sliceProj = [(0, 4, 5, 2)] := by
  obtain ⟨db', hok, o', hget, hkey, hproj⟩ := C5_object_roundtrip
    { hosts := [], contracts := [], archivedContracts := [], contractSets := []
      objects := [], slices := [], slabs := [], shards := [], sectors := []
      contractSectors := [], hostSectors := [], nextId := 0 }
    "k" ⟨99, [⟨⟨5, 2, [⟨7, 1001⟩]⟩, 0, 4⟩]⟩ [(7, 42)] (by decide) (by decide)
  exact ⟨db', hok, o', hget, hkey, hproj.trans (by decide)⟩

/-! ## C7 -/

theorem Stores.Grows.refl (db : Stores.DB) : Stores.Grows db db :=
  ⟨fun _ h => h, fun _ h => h, fun _ h => h,
   fun sec h => ⟨sec, h, rfl, rfl⟩, rfl, rfl⟩

theorem Stores.Grows.trans {db1 db2 db3 : Stores.DB}
    (h12 : Stores.Grows db1 db2) (h23 : Stores.Grows db2 db3) : Stores.Grows db1 db3 := by
  obtain ⟨a1, a2, a3, a4, a5, a6⟩ := h12
  obtain ⟨b1, b2, b3, b4, b5, b6⟩ := h23
  refine ⟨fun x h => b1 x (a1 x h), fun p h => b2 p (a2 p h), fun p h => b3 p (a3 p h),
    ?_, b5.trans a5, b6.trans a6⟩
  intro sec h
  obtain ⟨sec', h', hid, hroot⟩ := a4 sec h
  obtain ⟨sec'', h'', hid', hroot'⟩ := b4 sec' h'
  exact ⟨sec'', h'', hid'.trans hid, hroot'.trans hroot⟩

theorem Stores.appendAssoc_mem (l : List (Nat × Nat)) (q p : Nat × Nat) (h : p ∈ l) :
    p ∈ Stores.appendAssoc l q := by
  unfold Stores.appendAssoc
  by_cases hc : l.contains q = true
  · rw [if_pos hc]; exact h
  · rw [if_neg hc]; exact List.mem_append_left _ h

theorem Stores.appendAssoc_self (l : List (Nat × Nat)) (q : Nat × Nat) :
    q ∈ Stores.appendAssoc l q := by
  unfold Stores.appendAssoc
  by_cases hc : l.contains q = true
  · rw [if_pos hc]; exact List.elem_iff.mp hc
  · rw [if_neg hc]; exact List.mem_append_right _ (List.mem_singleton.mpr rfl)

theorem Stores.upsertSector_sectors (db : Stores.DB) (h r : Nat) :
    (∃ sec ∈ (Stores.upsertSector db h r).1.sectors,
      sec.id = (Stores.upsertSector db h r).2 ∧ sec.root = r) ∧
    (∀ sec ∈ db.sectors, ∃ sec' ∈ (Stores.upsertSector db h r).1.sectors,
      sec'.id = sec.id ∧ sec'.root = sec.root) := by
  unfold Stores.upsertSector
  cases hf : db.sectors.find? (fun sec => sec.root == r) with
  | some sec =>
    have hmem := List.mem_of_find?_eq_some hf
    have hroot : sec.root = r := by simpa using List.find?_some hf
    constructor
    · refine ⟨{ sec with latestHost := h }, ?_, rfl, hroot⟩
      refine List.mem_map.mpr ⟨sec, hmem, ?_⟩
      simp
    · intro sec0 hmem0
      by_cases hid : sec0.id = sec.id
      · refine ⟨{ sec0 with latestHost := h }, ?_, rfl, rfl⟩
        refine List.mem_map.mpr ⟨sec0, hmem0, ?_⟩
        simp [hid]
      · refine ⟨sec0, ?_, rfl, rfl⟩
        refine List.mem_map.mpr ⟨sec0, hmem0, ?_⟩
        simp [hid]
  | none =>
    constructor
    · exact ⟨_, List.mem_append_right _ (List.mem_singleton.mpr rfl), rfl, rfl⟩
    · intro sec0 hmem0
      exact ⟨sec0, List.mem_append_left _ hmem0, rfl, rfl⟩

theorem Stores.Grows_upsert (db : Stores.DB) (h r : Nat) :
    Stores.Grows db (Stores.upsertSector db h r).1 := by
  obtain ⟨-, -, -, h4, h5, h6, -, -, -⟩ := Stores.upsertSector_frame db h r
  obtain ⟨-, hpres⟩ := Stores.upsertSector_sectors db h r
  exact ⟨fun x hx => h4 ▸ hx, fun p hp => by
      have : (Stores.upsertSector db h r).1.contractSectors = db.contractSectors :=
        (Stores.upsertSector_frame db h r).2.2.2.2.2.2.1
      exact this ▸ hp,
    fun p hp => by
      have : (Stores.upsertSector db h r).1.hostSectors = db.hostSectors :=
        (Stores.upsertSector_frame db h r).2.2.2.2.2.2.2.1
      exact this ▸ hp,
    hpres, h5, h6⟩

theorem Stores.updateSlabShard_grows (slabId : Nat) (existing : List Nat)
    (used : List (Nat × Nat)) (db : Stores.DB) (sh : Stores.Sector) :
    Stores.Grows db (Stores.updateSlabShard slabId existing used db sh) := by
  refine Stores.Grows.trans (Stores.Grows_upsert db sh.host sh.root) ?_
  simp only [Stores.updateSlabShard]
  split <;> split <;> split <;>
    refine ⟨fun x hx => ?_, fun p hp => ?_, fun p hp => ?_,
      fun sec hs => ⟨sec, hs, rfl, rfl⟩, rfl, rfl⟩ <;>
    first
      | assumption
      | exact List.mem_append_left _ ‹_›
      | exact Stores.appendAssoc_mem _ _ _ ‹_›

theorem Stores.foldUpdateSlabShard_grows (shards : List Stores.Sector) (slabId : Nat)
    (existing : List Nat) (used : List (Nat × Nat)) (db : Stores.DB) :
    Stores.Grows db (shards.foldl (Stores.updateSlabShard slabId existing used) db) := by
  induction shards generalizing db with
  | nil => exact Stores.Grows.refl db
  | cons sh rest ih =>
    rw [List.foldl_cons]
    exact (Stores.updateSlabShard_grows slabId existing used db sh).trans
      (ih (Stores.updateSlabShard slabId existing used db sh))

theorem Stores.ShardFact.mono {db0 dbX dbY : Stores.DB} {slabId : Nat}
    {used : List (Nat × Nat)} {sh : Stores.Sector}
    (hf : Stores.ShardFact db0 slabId used sh dbX) (hg : Stores.Grows dbX dbY) :
    Stores.ShardFact db0 slabId used sh dbY := by
  obtain ⟨sec, hsec, hroot, ⟨srow, hsrow, hsl, hsid⟩, hassoc⟩ := hf
  obtain ⟨g1, g2, g3, g4, -, -⟩ := hg
  obtain ⟨sec', hsec', hid', hroot'⟩ := g4 sec hsec
  refine ⟨sec', hsec', hroot'.trans hroot,
    ⟨srow, g1 srow hsrow, hsl, by rw [hsid, ← hid']⟩, ?_⟩
  intro fcid hlk
  obtain ⟨hcs, hhs⟩ := hassoc fcid hlk
  constructor
  · intro c hfind
    rw [hid']
    exact g2 _ (hcs c hfind)
  · intro h hfind
    rw [hid']
    exact g3 _ (hhs h hfind)

theorem Stores.lookupUsed_mem_snd (used : List (Nat × Nat)) (h fcid : Nat)
    (hlk : Stores.lookupUsed used h = some fcid) :
    (used.map Prod.snd).contains fcid = true := by
  unfold Stores.lookupUsed at hlk
  cases hf : used.find? (fun p => p.1 == h) with
  | none => rw [hf] at hlk; cases hlk
  | some p =>
    rw [hf] at hlk
    cases hlk
    exact List.elem_iff.mpr (List.mem_map.mpr ⟨p, List.mem_of_find?_eq_some hf, rfl⟩)

theorem Stores.lookupUsed_mem_fst (used : List (Nat × Nat)) (h fcid : Nat)
    (hlk : Stores.lookupUsed used h = some fcid) :
    (used.map Prod.fst).contains h = true := by
  unfold Stores.lookupUsed at hlk
  cases hf : used.find? (fun p => p.1 == h) with
  | none => rw [hf] at hlk; cases hlk
  | some p =>
    have hp : p.1 = h := by simpa using List.find?_some hf
    exact List.elem_iff.mpr (hp ▸ List.mem_map.mpr ⟨p, List.mem_of_find?_eq_some hf, rfl⟩)

theorem Stores.updateSlabShard_establish (slabId : Nat) (existing : List Nat)
    (used : List (Nat × Nat)) (db db0 : Stores.DB) (sh : Stores.Sector)
    (hex : ∀ sid, existing.contains sid = true →
      ∃ row ∈ db.shards, row.dbSlabId = slabId ∧ row.dbSectorId = sid)
    (hc0 : db.contracts = db0.contracts) (hh0 : db.hosts = db0.hosts) :
    Stores.ShardFact db0 slabId used sh (Stores.updateSlabShard slabId existing used db sh) := by
  obtain ⟨⟨sec1, hsec1, hid1, hroot1⟩, -⟩ := Stores.upsertSector_sectors db sh.host sh.root
  have hfs : (Stores.upsertSector db sh.host sh.root).1.shards = db.shards :=
    (Stores.upsertSector_frame db sh.host sh.root).2.2.2.1
  have hfc : (Stores.upsertSector db sh.host sh.root).1.contracts = db.contracts :=
    (Stores.upsertSector_frame db sh.host sh.root).2.2.2.2.1
  have hfh : (Stores.upsertSector db sh.host sh.root).1.hosts = db.hosts :=
    (Stores.upsertSector_frame db sh.host sh.root).2.2.2.2.2.1
  have hup : Stores.Grows (Stores.upsertSector db sh.host sh.root).1
      (Stores.updateSlabShard slabId existing used db sh) := by
    simp only [Stores.updateSlabShard]
    split <;> split <;> split <;>
      refine ⟨fun x hx => ?_, fun p hp => ?_, fun p hp => ?_,
        fun sec hs => ⟨sec, hs, rfl, rfl⟩, rfl, rfl⟩ <;>
      first
        | assumption
        | exact List.mem_append_left _ ‹_›
        | exact Stores.appendAssoc_mem _ _ _ ‹_›
  obtain ⟨sec2, hsec2, hid2, hroot2⟩ := hup.2.2.2.1 sec1 hsec1
  refine ⟨sec2, hsec2, hroot2.trans hroot1, ?_, ?_⟩
  · by_cases hcont : existing.contains (Stores.upsertSector db sh.host sh.root).2 = true
    · obtain ⟨row, hrow, h1, h2⟩ := hex _ hcont
      refine ⟨row, ?_, h1, by rw [h2, hid2, hid1]⟩
      exact (Stores.updateSlabShard_grows slabId existing used db sh).1 row hrow
    · refine ⟨⟨(Stores.upsertSector db sh.host sh.root).1.nextId, slabId,
        (Stores.upsertSector db sh.host sh.root).2⟩, ?_, rfl, by rw [hid2, hid1]⟩
      simp only [Stores.updateSlabShard]
      split <;> split <;> split <;> simp_all
  · intro fcid hlk
    have hgetd : (Stores.lookupUsed used sh.host).getD 0 = fcid := by rw [hlk]; rfl
    have hsnd := Stores.lookupUsed_mem_snd used sh.host fcid hlk
    have hfst := Stores.lookupUsed_mem_fst used sh.host fcid hlk
    constructor
    · intro c hfind
      rw [hid2, hid1]
      simp only [Stores.updateSlabShard, hgetd]
      split <;> split
      all_goals rename_i heqInner
      all_goals rw [if_pos hsnd] at heqInner
      all_goals simp only [apply_ite Stores.DB.contracts, ite_self, hfc, hc0] at heqInner
      all_goals
        first
          | exact Option.noConfusion (heqInner.symm.trans hfind)
          | (have hcc := Option.some.inj (heqInner.symm.trans hfind)
             subst hcc
             exact Stores.appendAssoc_self _ _)
    · intro h hfind
      rw [hid2, hid1]
      simp only [Stores.updateSlabShard, hgetd]
      split <;> rename_i heqOuter <;> rw [if_pos hfst] at heqOuter
      all_goals
        revert heqOuter
        split <;> intro heqOuter
      all_goals
        simp only [apply_ite Stores.DB.hosts, ite_self, hfh, hh0] at heqOuter
      all_goals
        first
          | exact Option.noConfusion (heqOuter.symm.trans hfind)
          | (have hhh := Option.some.inj (heqOuter.symm.trans hfind)
             subst hhh
             exact Stores.appendAssoc_self _ _)

theorem Stores.foldUpdateSlabShard_facts (shards : List Stores.Sector) (slabId : Nat)
    (existing : List Nat) (used : List (Nat × Nat)) (db db0 : Stores.DB)
    (hex : ∀ sid, existing.contains sid = true →
      ∃ row ∈ db.shards, row.dbSlabId = slabId ∧ row.dbSectorId = sid)
    (hc0 : db.contracts = db0.contracts) (hh0 : db.hosts = db0.hosts) :
    ∀ sh ∈ shards, Stores.ShardFact db0 slabId used sh
      (shards.foldl (Stores.updateSlabShard slabId existing used) db) := by
  induction shards generalizing db with
  | nil => intro sh h; cases h
  | cons sh0 rest ih =>
    intro sh hmem
    rw [List.foldl_cons]
    have hg : Stores.Grows db (Stores.updateSlabShard slabId existing used db sh0) :=
      Stores.updateSlabShard_grows slabId existing used db sh0
    have hex1 : ∀ sid, existing.contains sid = true →
        ∃ row ∈ (Stores.updateSlabShard slabId existing used db sh0).shards,
          row.dbSlabId = slabId ∧ row.dbSectorId = sid := by
      intro sid hsid
      obtain ⟨row, hrow, h1, h2⟩ := hex sid hsid
      exact ⟨row, hg.1 row hrow, h1, h2⟩
    have hc1 : (Stores.updateSlabShard slabId existing used db sh0).contracts
        = db0.contracts := hg.2.2.2.2.1.trans hc0
    have hh1 : (Stores.updateSlabShard slabId existing used db sh0).hosts
        = db0.hosts := hg.2.2.2.2.2.trans hh0
    rcases List.mem_cons.mp hmem with heq | hmem'
    · subst heq
      exact (Stores.updateSlabShard_establish slabId existing used db db0 sh hex hc0 hh0).mono
        (Stores.foldUpdateSlabShard_grows rest slabId existing used
          (Stores.updateSlabShard slabId existing used db sh))
    · exact ih (Stores.updateSlabShard slabId existing used db sh0) hex1 hc1 hh1 sh hmem'

/-- C7: UpdateSlab only adds state.  On success no pre-existing
slab↔sector join row, no contract↔sector and no host↔sector association
is removed, every sector row survives with its id and root, and for each
updated shard a sector row with the shard's root exists, linked to the
slab, with the contract and host associations appended whenever the
shard's host maps to a contract in `usedContracts` and those rows exist
in the store (the ShardFact predicate). -/
theorem C7_update_slab_additive (db : Stores.DB) (s : Stores.Slab)
    (used : List (Nat × Nat)) (db' : Stores.DB)
    (hok : Stores.updateSlab db s used = .ok db') :
    (∀ x ∈ db.shards, x ∈ db'.shards) ∧
    (∀ p ∈ db.contractSectors, p ∈ db'.contractSectors) ∧
    (∀ p ∈ db.hostSectors, p ∈ db'.hostSectors) ∧
    (∀ sec ∈ db.sectors, ∃ sec' ∈ db'.sectors, sec'.id = sec.id ∧ sec'.root = sec.root) ∧
    (∀ slab, db.slabs.find? (fun slb => slb.key == s.key) = some slab →
      ∀ sh ∈ s.shards, Stores.ShardFact db slab.id used sh db') := by
  unfold Stores.updateSlab at hok
  cases hfind : db.slabs.find? (fun slb => slb.key == s.key) with
  | none => rw [hfind] at hok; cases hok
  | some slab =>
    rw [hfind] at hok
    cases hok
    have hg := Stores.foldUpdateSlabShard_grows s.shards slab.id
      ((db.shards.filter (fun x => x.dbSlabId == slab.id)).map (·.dbSectorId)) used db
    refine ⟨hg.1, hg.2.1, hg.2.2.1, hg.2.2.2.1, ?_⟩
    intro slab' hfind'
    have heqslab : slab = slab' := Option.some.inj hfind'
    subst heqslab
    intro sh hmem
    refine Stores.foldUpdateSlabShard_facts s.shards slab.id _ used db db ?_ rfl rfl sh hmem
    intro sid hsid
    obtain ⟨row, hrow, hrsid⟩ := List.mem_map.mp (List.elem_iff.mp hsid)
    exact ⟨row, List.mem_of_mem_filter hrow,
      by simpa using (List.mem_filter.mp hrow).2, hrsid⟩

/-- Witness for C7: updating the scenario store's slab with one shard
keeps the pre-existing slab↔sector join row. -/
theorem C7_update_slab_additive_witness :
    ∃ db', Stores.updateSlab Stores.scenarioDB ⟨5, 2, [⟨101, 301⟩]⟩ [(101, 201)] = .ok db' ∧
      (⟨31, 10, 11⟩ : Stores.dbShard) ∈ db'.shards := by
  obtain ⟨db', hok⟩ : ∃ db', Stores.updateSlab Stores.scenarioDB
      ⟨5, 2, [⟨101, 301⟩]⟩ [(101, 201)] = .ok db' := ⟨_, rfl⟩
  exact ⟨db', hok,
    (C7_update_slab_additive Stores.scenarioDB ⟨5, 2, [⟨101, 301⟩]⟩ [(101, 201)] db' hok).1
      ⟨31, 10, 11⟩ (by decide)⟩
